import Mathlib

/-! Azure NetApp Files pool-change sample: orchestration model.

Shallow embedding of `example.go` (functions `main` and `exit`, and the
package-level variables they read and write).

* The package-level variables form the record `Globals`; `main` and `exit`
  are functions from `Globals` to `Globals`.
* Every call into `sdkutils` / `utils.ReadAzureBasicInfoJSON` is an external
  call.  Its answer is supplied by an environment `Env`, an arbitrary function
  of the history of earlier calls (with their answers) and of the call being
  made.  Each call is recorded, with its answer, in the ghost field `trace`.
* `range pools` iterates a Go map, whose order is unspecified; the order of
  each of the two loops is a parameter (`MapOrder`).
* `defer func() { exit(cntx); os.Exit(exitCode) }()` makes every return of
  `main` continue with `exit`; the process status is the final `exitCode`.
* The source dereferences `*config.SubscriptionID`, `*account.ID`,
  `*capacityPool.ID` and `*volume.ID` without a guard.  A successful answer
  whose identifier is nil makes `main` panic there; the deferred function
  then runs `exit` from the state reached, with `exitCode` and
  `shouldCleanUp` as they are, and `os.Exit` ends the process before the
  panic is reported (`nilPanic`).
* Console lines are collected in the ghost field `console`; `time.Sleep` has
  no effect on the state and is left out.
* `main` and `exit` are written in consecutive parts (`main`, `mainPools`,
  `mainVolume`; `exit`, `exitPools`, `exitAccount`), each continuing with the
  next, so that each part can be specified on its own.
-/

namespace PoolChange

/-! ## Constants of the source file -/

def virtualNetworksAPIVersion : String := "2019-09-01"
def location : String := "eastus"
def resourceGroupName : String := "ANF01-rg"
def vnetresourceGroupName : String := "ANF01-rg"
def vnetName : String := "vnet-01"
def subnetName : String := "ANF-sn"
def volumeName : String := "NFSv3Volume01"
def capacityPoolSizeBytes : Int := 4398046511104
def volumeSizeBytes : Int := 107374182400
def protocolTypes : List String := ["NFSv3"]
def sampleTags : List (String × String) :=
  [("Author", "ANF Go Pool Change SDK Sample"), ("Service", "Azure Netapp Files")]

/-! ## Data model -/

/-- Properties of one capacity pool (`Properties` in the source). -/
structure Properties where
  CapacityPoolName : String
  ServiceLevel : String
  CapacityPoolID : String
  deriving DecidableEq, Repr

/-- The two keys of the `pools` map. -/
inductive PoolKey where
  | Source
  | Destination
  deriving DecidableEq, Repr

/-- The `pools` map: one `*Properties` per key. -/
structure Pools where
  source : Properties
  destination : Properties
  deriving DecidableEq, Repr

/-- Lookup `pools[k]`. -/
def Pools.get (p : Pools) : PoolKey → Properties
  | .Source => p.source
  | .Destination => p.destination

/-- Assignment through the pointer `pools[k]` of the field `CapacityPoolID`. -/
def Pools.setID (p : Pools) (k : PoolKey) (id : String) : Pools :=
  match k with
  | .Source => { p with source := { p.source with CapacityPoolID := id } }
  | .Destination => { p with destination := { p.destination with CapacityPoolID := id } }

/-- Order in which one `range pools` loop visits the two keys. -/
inductive MapOrder where
  | sourceFirst
  | destinationFirst
  deriving DecidableEq, Repr

/-- Keys visited by a `range pools` loop, in visiting order. -/
def MapOrder.keys : MapOrder → List PoolKey
  | .sourceFirst => [.Source, .Destination]
  | .destinationFirst => [.Destination, .Source]

/-- External calls made by `main` and `exit` (the context argument, the `nil`
active-directory argument of account creation and the empty data-protection
object of volume creation are constant and omitted). -/
inductive Call where
  | ReadAzureBasicInfoJSON
  | GetResourceByID (resourceID apiVersion : String)
  | CreateANFAccount (location resourceGroup accountName : String)
      (tags : List (String × String))
  | CreateANFCapacityPool (location resourceGroup accountName poolName serviceLevel : String)
      (sizeBytes : Int) (tags : List (String × String))
  | CreateANFVolume (location resourceGroup accountName poolName volumeName serviceLevel
      subnetID snapshotID : String) (protocols : List String) (sizeBytes : Int)
      (flagA flagB : Bool) (tags : List (String × String))
  | WaitForANFResource (resourceID : String) (intervalInSec retries : Nat)
      (checkForReplication : Bool)
  | MoveANFVolumeToNewPool (resourceGroup accountName poolName volumeName
      newPoolResourceID : String)
  | DeleteANFVolume (resourceGroup accountName poolName volumeName : String)
  | WaitForNoANFResource (resourceID : String) (intervalInSec retries : Nat)
      (checkForReplication : Bool)
  | DeleteANFCapacityPool (resourceGroup accountName poolName : String)
  | DeleteANFAccount (resourceGroup accountName : String)
  deriving DecidableEq, Repr

/-- Answer of an external call: `error msg` is a non-nil `err` whose text is
`msg`; `ok v` is a nil `err`, where `v` is the identifier pointer carried by
the returned descriptor (`config.SubscriptionID` for the auth file, `x.ID` for
a creation): `some id` for a pointer to `id`, `none` for a nil pointer (or a
nil `config`).  The value `v` is unused for calls whose result is only an error
or is discarded. -/
abbrev Resp := Except String (Option String)

/-- One recorded external call with its answer. -/
abbrev Event := Call × Resp

/-- Behaviour of the external services: the answer to a call, given the
history of the calls made so far. -/
abbrev Env := List Event → Call → Resp

/-- Package-level variables of the program, with the ghost fields `trace` and
`console`. -/
structure Globals where
  shouldCleanUp : Bool
  anfAccountName : String
  pools : Pools
  exitCode : Int
  volumeID : String
  accountID : String
  trace : List Event
  console : List String

/-- Values of the package-level variables at program start.  `shouldCleanUp`
(the source ships `false`) and the generated account name are parameters. -/
def initGlobals (cleanup : Bool) (accountName : String) : Globals :=
  { shouldCleanUp := cleanup
    anfAccountName := accountName
    pools :=
      { source := { CapacityPoolName := "SourcePremiumPool", ServiceLevel := "Premium",
                    CapacityPoolID := "" }
        destination := { CapacityPoolName := "DestinationStandardPool",
                         ServiceLevel := "Standard", CapacityPoolID := "" } }
    exitCode := 0
    volumeID := ""
    accountID := ""
    trace := []
    console := [] }

/-- Ghost step: `utils.ConsoleOutput` / `utils.PrintHeader` (the line is kept). -/
def ConsoleOutput (s : Globals) (line : String) : Globals :=
  { s with console := s.console ++ [line] }

/-- Ghost step: remember an external call and its answer. -/
def record (s : Globals) (c : Call) (r : Resp) : Globals :=
  { s with trace := s.trace ++ [(c, r)] }

/-- The failure epilogue shared by all error branches of `main`:
`exitCode = 1; shouldCleanUp = false; return`. -/
def failMain (s : Globals) : Globals :=
  { s with exitCode := 1, shouldCleanUp := false }

/-- A nil pointer dereference in `main`: `main` stops at once, nothing is
written to the variables, and the deferred function takes over from this
state. -/
def nilPanic (s : Globals) : Globals := s

/-- Outcome of a loop body sequence: fell through, or left `main` (by `return`
or by a panic). -/
inductive Flow where
  | next (s : Globals)
  | ret (s : Globals)

/-- The loop `for _, pool := range pools { ... }` of `main` over the keys in
visiting order. -/
def createPools (env : Env) : List PoolKey → Globals → Flow
  | [], s => .next s
  | k :: ks, s =>
    let pool := s.pools.get k
    let s := ConsoleOutput s ("Creating " ++ pool.CapacityPoolName ++ " Capacity Pool...")
    let c := Call.CreateANFCapacityPool location resourceGroupName s.anfAccountName
      pool.CapacityPoolName pool.ServiceLevel capacityPoolSizeBytes sampleTags
    match env s.trace c with
    | .error err =>
      let s := record s c (.error err)
      let s := ConsoleOutput s ("an error ocurred while creating " ++ pool.CapacityPoolName
        ++ " capacity pool: " ++ err)
      .ret (failMain s)
    | .ok none =>
      .ret (nilPanic (record s c (.ok none)))
    | .ok (some id) =>
      let s := record s c (.ok (some id))
      let s := { s with pools := s.pools.setID k id }
      let s := ConsoleOutput s ("Capacity Pool successfully created, resource id: "
        ++ (s.pools.get k).CapacityPoolID)
      createPools env ks s

/-- The subnet resource id built by `fmt.Sprintf` in `main`. -/
def subnetIDOf (subscriptionID : String) : String :=
  "/subscriptions/" ++ subscriptionID ++ "/resourceGroups/" ++ vnetresourceGroupName
    ++ "/providers/Microsoft.Network/virtualNetworks/" ++ vnetName ++ "/subnets/" ++ subnetName

/-- Part of `main` from the volume creation on: volume creation, readiness
wait and pool change. -/
def mainVolume (env : Env) (subnetID : String) (s : Globals) : Globals :=
  let s := ConsoleOutput s ("Creating NFSv3 Volume " ++ volumeName ++ " at "
    ++ (s.pools.get .Source).CapacityPoolName ++ " capacity pool...")
  let c := Call.CreateANFVolume location resourceGroupName s.anfAccountName
    (s.pools.get .Source).CapacityPoolName volumeName (s.pools.get .Source).ServiceLevel
    subnetID "" protocolTypes volumeSizeBytes false true sampleTags
  match env s.trace c with
  | .error err =>
    let s := record s c (.error err)
    let s := ConsoleOutput s ("an error ocurred while creating volume: " ++ err)
    failMain s
  | .ok none =>
    nilPanic (record s c (.ok none))
  | .ok (some id) =>
    let s := record s c (.ok (some id))
    let s := { s with volumeID := id }
    let s := ConsoleOutput s ("Volume successfully created, resource id: " ++ s.volumeID)
    let s := ConsoleOutput s "Waiting for volume to be ready..."
    let w := Call.WaitForANFResource s.volumeID 60 50 false
    match env s.trace w with
    | .error err =>
      let s := record s w (.error err)
      let s := ConsoleOutput s ("an error ocurred while waiting for volume: " ++ err)
      failMain s
    | .ok v =>
      let s := record s w (.ok v)
      let s := ConsoleOutput s ("Moving Volume " ++ volumeName ++ " to "
        ++ (s.pools.get .Destination).CapacityPoolName ++ " capacity pool...")
      let m := Call.MoveANFVolumeToNewPool resourceGroupName s.anfAccountName
        (s.pools.get .Source).CapacityPoolName volumeName
        (s.pools.get .Destination).CapacityPoolID
      match env s.trace m with
      | .error err =>
        let s := record s m (.error err)
        let s := ConsoleOutput s
          ("an error ocurred while moving volume to another capacity pool: " ++ err)
        failMain s
      | .ok u =>
        let s := record s m (.ok u)
        ConsoleOutput s "Wait a few seconds for move complete before deleting resources..."

/-- Part of `main` from the capacity-pool loop on. -/
def mainPools (env : Env) (order : MapOrder) (subnetID : String) (s : Globals) : Globals :=
  match createPools env order.keys s with
  | .ret s => s
  | .next s => mainVolume env subnetID s

/-- The body of `main` (without the deferred call), up to the account creation;
it continues with `mainPools`. -/
def main (env : Env) (order : MapOrder) (s : Globals) : Globals :=
  let s := ConsoleOutput s ("Azure NetAppFiles Go Pool Change SDK Sample - Sample application "
    ++ "that changes an NFSv3 volume tier from Premium to Standard by moving it to a new "
    ++ "Capacity Pool.")
  let c := Call.ReadAzureBasicInfoJSON
  match env s.trace c with
  | .error err =>
    let s := record s c (.error err)
    let s := ConsoleOutput s
      ("an error ocurred getting non-sensitive info from AzureAuthFile: " ++ err)
    failMain s
  | .ok none =>
    nilPanic (record s c (.ok none))
  | .ok (some subscriptionID) =>
    let s := record s c (.ok (some subscriptionID))
    let subnetID := subnetIDOf subscriptionID
    let s := ConsoleOutput s ("Checking if vnet/subnet " ++ subnetID ++ " exists.")
    let g := Call.GetResourceByID subnetID virtualNetworksAPIVersion
    match env s.trace g with
    | .error err =>
      let s := record s g (.error err)
      let s :=
        if err = "NotFound" then
          ConsoleOutput s ("error: subnet " ++ subnetID ++ " not found: " ++ err)
        else
          ConsoleOutput s ("error: an error ocurred trying to check if " ++ subnetID
            ++ " subnet exists: " ++ err)
      failMain s
    | .ok v =>
      let s := record s g (.ok v)
      let s := ConsoleOutput s ("Creating Azure NetApp Files account " ++ s.anfAccountName
        ++ "...")
      let a := Call.CreateANFAccount location resourceGroupName s.anfAccountName sampleTags
      match env s.trace a with
      | .error err =>
        let s := record s a (.error err)
        let s := ConsoleOutput s ("an error ocurred while creating account: " ++ err)
        failMain s
      | .ok none =>
        nilPanic (record s a (.ok none))
      | .ok (some id) =>
        let s := record s a (.ok (some id))
        let s := { s with accountID := id }
        let s := ConsoleOutput s ("Account successfully created, resource id: " ++ s.accountID)
        mainPools env order subnetID s

/-- The loop `for _, pool := range pools { ... }` of `exit`. -/
def deletePools (env : Env) : List PoolKey → Globals → Flow
  | [], s => .next s
  | k :: ks, s =>
    let pool := s.pools.get k
    let s := ConsoleOutput s ("\t\tCleaning up " ++ pool.CapacityPoolName ++ "...")
    let c := Call.DeleteANFCapacityPool resourceGroupName s.anfAccountName pool.CapacityPoolName
    match env s.trace c with
    | .error err =>
      let s := record s c (.error err)
      let s := ConsoleOutput s ("an error ocurred while deleting capacity pool: " ++ err)
      .ret { s with exitCode := 1 }
    | .ok v =>
      let s := record s c (.ok v)
      let w := Call.WaitForNoANFResource pool.CapacityPoolID 10 60 false
      let s := record s w (env s.trace w)
      let s := ConsoleOutput s "\t\tCapacity pool successfully deleted"
      deletePools env ks s

/-- Part of `exit` after the capacity-pool loop: account cleanup. -/
def exitAccount (env : Env) (s : Globals) : Globals :=
  let s := ConsoleOutput s "\tCapacity pools successfully deleted"
  let s := ConsoleOutput s "\tCleaning up account..."
  let a := Call.DeleteANFAccount resourceGroupName s.anfAccountName
  match env s.trace a with
  | .error err =>
    let s := record s a (.error err)
    let s := ConsoleOutput s ("an error ocurred while deleting account: " ++ err)
    { s with exitCode := 1 }
  | .ok u =>
    let s := record s a (.ok u)
    let s := ConsoleOutput s "\tAccount successfully deleted"
    ConsoleOutput s "\tCleanup completed!"

/-- Part of `exit` from the capacity-pool loop on. -/
def exitPools (env : Env) (order : MapOrder) (s : Globals) : Globals :=
  match deletePools env order.keys s with
  | .ret s => s
  | .next s => exitAccount env s

/-- The function `exit` of the source, up to the volume cleanup; it continues
with `exitPools`. -/
def exit (env : Env) (order : MapOrder) (s : Globals) : Globals :=
  let s := ConsoleOutput s "Exiting"
  if s.shouldCleanUp then
    let s := ConsoleOutput s "\tPerforming clean up"
    let s := ConsoleOutput s "\tCleaning up volume..."
    let d := Call.DeleteANFVolume resourceGroupName s.anfAccountName
      (s.pools.get .Destination).CapacityPoolName volumeName
    match env s.trace d with
    | .error err =>
      let s := record s d (.error err)
      let s := ConsoleOutput s ("an error ocurred while deleting volume: " ++ err)
      { s with exitCode := 1 }
    | .ok v =>
      let s := record s d (.ok v)
      let w := Call.WaitForNoANFResource s.volumeID 60 60 false
      let s := record s w (env s.trace w)
      let s := ConsoleOutput s "\tVolume successfully deleted"
      let s := ConsoleOutput s "\tCleaning up capacity pools..."
      exitPools env order s
  else
    s

/-- A whole process run: `main`, then the deferred `exit` (also after a panic
of `main`); the process status is the field `exitCode` of the result. -/
def run (env : Env) (orderMain orderExit : MapOrder) (cleanup : Bool) (accountName : String) :
    Globals :=
  exit env orderExit (main env orderMain (initGlobals cleanup accountName))

/-! ## Specification vocabulary: calls, outcomes, classifications -/

/-- First key visited by a loop. -/
def MapOrder.first : MapOrder → PoolKey
  | .sourceFirst => .Source
  | .destinationFirst => .Destination

/-- Second key visited by a loop. -/
def MapOrder.second : MapOrder → PoolKey
  | .sourceFirst => .Destination
  | .destinationFirst => .Source

/-- The subnet lookup issued by `main` for a subscription id. -/
def subnetCall (sub : String) : Call :=
  Call.GetResourceByID (subnetIDOf sub) virtualNetworksAPIVersion

/-- The account creation call issued from state `s`. -/
def acctCall (s : Globals) : Call :=
  Call.CreateANFAccount location resourceGroupName s.anfAccountName sampleTags

/-- The pool creation call issued from state `s` for key `k`. -/
def poolCall (s : Globals) (k : PoolKey) : Call :=
  Call.CreateANFCapacityPool location resourceGroupName s.anfAccountName
    (s.pools.get k).CapacityPoolName (s.pools.get k).ServiceLevel capacityPoolSizeBytes sampleTags

/-- The volume creation call issued from state `s`. -/
def volCall (s : Globals) (sub : String) : Call :=
  Call.CreateANFVolume location resourceGroupName s.anfAccountName
    (s.pools.get .Source).CapacityPoolName volumeName (s.pools.get .Source).ServiceLevel
    sub "" protocolTypes volumeSizeBytes false true sampleTags

/-- The pool-change call issued from state `s`. -/
def moveCall (s : Globals) : Call :=
  Call.MoveANFVolumeToNewPool resourceGroupName s.anfAccountName
    (s.pools.get .Source).CapacityPoolName volumeName (s.pools.get .Destination).CapacityPoolID

/-- The volume deletion call issued from state `s`. -/
def delVolCall (s : Globals) : Call :=
  Call.DeleteANFVolume resourceGroupName s.anfAccountName
    (s.pools.get .Destination).CapacityPoolName volumeName

/-- The pool deletion call issued from state `s` for key `k`. -/
def delPoolCall (s : Globals) (k : PoolKey) : Call :=
  Call.DeleteANFCapacityPool resourceGroupName s.anfAccountName (s.pools.get k).CapacityPoolName

/-- The wait-for-absence call issued from state `s` for the pool of key `k`. -/
def waitNoPoolCall (s : Globals) (k : PoolKey) : Call :=
  Call.WaitForNoANFResource (s.pools.get k).CapacityPoolID 10 60 false

/-- The account deletion call issued from state `s`. -/
def delAcctCall (s : Globals) : Call :=
  Call.DeleteANFAccount resourceGroupName s.anfAccountName

/-- Calls of a fully successful validation and account creation. -/
def accountEvents (s : Globals) (sub : String) (v : Option String) (aid : String) :
    List Event :=
  [(Call.ReadAzureBasicInfoJSON, .ok (some sub)), (subnetCall sub, .ok v),
   (acctCall s, .ok (some aid))]

/-- Calls of a fully successful creation of both pools, after `accountEvents`. -/
def poolEvents (s : Globals) (o : MapOrder) (sub : String) (v : Option String)
    (aid id1 id2 : String) : List Event :=
  accountEvents s sub v aid ++
    [(poolCall s o.first, .ok (some id1)), (poolCall s o.second, .ok (some id2))]

/-- The `pools` map after both pools were created in order `o`. -/
def poolsAfter (s : Globals) (o : MapOrder) (id1 id2 : String) : Pools :=
  (s.pools.setID o.first id1).setID o.second id2

/-- Calls of a fully successful `main`. -/
def mainEvents (s : Globals) (o : MapOrder) (sub : String) (v : Option String)
    (aid id1 id2 vid : String) (w u : Option String) : List Event :=
  poolEvents s o sub v aid id1 id2 ++
    [(volCall s (subnetIDOf sub), .ok (some vid)),
     (Call.WaitForANFResource vid 60 50 false, .ok w),
     (moveCall { s with pools := poolsAfter s o id1 id2 }, .ok u)]

/-- The final states `main` can reach from `s` with loop order `o`: the error
returns (`...Err`), the nil-identifier panics (`...Nil`) and the normal end. -/
inductive MainEnds (s : Globals) (o : MapOrder) : Globals → Prop
  | authErr (e : String) (con : List String) : MainEnds s o
      { s with trace := s.trace ++ [(Call.ReadAzureBasicInfoJSON, .error e)], exitCode := 1,
               shouldCleanUp := false, console := con }
  | authNil (con : List String) : MainEnds s o
      { s with trace := s.trace ++ [(Call.ReadAzureBasicInfoJSON, .ok none)], console := con }
  | subnetErr (sub e : String) (con : List String) : MainEnds s o
      { s with trace := s.trace ++ [(Call.ReadAzureBasicInfoJSON, .ok (some sub)),
                 (subnetCall sub, .error e)],
               exitCode := 1, shouldCleanUp := false, console := con }
  | acctErr (sub : String) (v : Option String) (e : String) (con : List String) : MainEnds s o
      { s with trace := s.trace ++ [(Call.ReadAzureBasicInfoJSON, .ok (some sub)),
                 (subnetCall sub, .ok v), (acctCall s, .error e)],
               exitCode := 1, shouldCleanUp := false, console := con }
  | acctNil (sub : String) (v : Option String) (con : List String) : MainEnds s o
      { s with trace := s.trace ++ [(Call.ReadAzureBasicInfoJSON, .ok (some sub)),
                 (subnetCall sub, .ok v), (acctCall s, .ok none)],
               console := con }
  | pool1Err (sub : String) (v : Option String) (aid e : String) (con : List String) :
      MainEnds s o
      { s with trace := s.trace ++ (accountEvents s sub v aid ++
                 [(poolCall s o.first, .error e)]),
               accountID := aid, exitCode := 1, shouldCleanUp := false, console := con }
  | pool1Nil (sub : String) (v : Option String) (aid : String) (con : List String) :
      MainEnds s o
      { s with trace := s.trace ++ (accountEvents s sub v aid ++
                 [(poolCall s o.first, .ok none)]),
               accountID := aid, console := con }
  | pool2Err (sub : String) (v : Option String) (aid id1 e : String) (con : List String) :
      MainEnds s o
      { s with trace := s.trace ++ (accountEvents s sub v aid ++
                 [(poolCall s o.first, .ok (some id1)), (poolCall s o.second, .error e)]),
               pools := s.pools.setID o.first id1,
               accountID := aid, exitCode := 1, shouldCleanUp := false, console := con }
  | pool2Nil (sub : String) (v : Option String) (aid id1 : String) (con : List String) :
      MainEnds s o
      { s with trace := s.trace ++ (accountEvents s sub v aid ++
                 [(poolCall s o.first, .ok (some id1)), (poolCall s o.second, .ok none)]),
               pools := s.pools.setID o.first id1,
               accountID := aid, console := con }
  | volErr (sub : String) (v : Option String) (aid id1 id2 e : String) (con : List String) :
      MainEnds s o
      { s with trace := s.trace ++ (poolEvents s o sub v aid id1 id2 ++
                 [(volCall s (subnetIDOf sub), .error e)]),
               pools := poolsAfter s o id1 id2,
               accountID := aid, exitCode := 1, shouldCleanUp := false, console := con }
  | volNil (sub : String) (v : Option String) (aid id1 id2 : String) (con : List String) :
      MainEnds s o
      { s with trace := s.trace ++ (poolEvents s o sub v aid id1 id2 ++
                 [(volCall s (subnetIDOf sub), .ok none)]),
               pools := poolsAfter s o id1 id2,
               accountID := aid, console := con }
  | waitErr (sub : String) (v : Option String) (aid id1 id2 vid e : String)
      (con : List String) : MainEnds s o
      { s with trace := s.trace ++ (poolEvents s o sub v aid id1 id2 ++
                 [(volCall s (subnetIDOf sub), .ok (some vid)),
                  (Call.WaitForANFResource vid 60 50 false, .error e)]),
               pools := poolsAfter s o id1 id2, volumeID := vid,
               accountID := aid, exitCode := 1, shouldCleanUp := false, console := con }
  | moveErr (sub : String) (v : Option String) (aid id1 id2 vid : String) (w : Option String)
      (e : String) (con : List String) : MainEnds s o
      { s with trace := s.trace ++ (poolEvents s o sub v aid id1 id2 ++
                 [(volCall s (subnetIDOf sub), .ok (some vid)),
                  (Call.WaitForANFResource vid 60 50 false, .ok w),
                  (moveCall { s with pools := poolsAfter s o id1 id2 }, .error e)]),
               pools := poolsAfter s o id1 id2, volumeID := vid,
               accountID := aid, exitCode := 1, shouldCleanUp := false, console := con }
  | ok (sub : String) (v : Option String) (aid id1 id2 vid : String) (w u : Option String)
      (con : List String) : MainEnds s o
      { s with trace := s.trace ++ mainEvents s o sub v aid id1 id2 vid w u,
               pools := poolsAfter s o id1 id2, volumeID := vid,
               accountID := aid, console := con }

/-- Calls of a teardown in which the volume and both pools were deleted. -/
def teardownEvents (s : Globals) (o : MapOrder) (dv : Option String) (r : Resp)
    (p1 : Option String) (r1 : Resp) (p2 : Option String) (r2 : Resp) : List Event :=
  [(delVolCall s, .ok dv), (Call.WaitForNoANFResource s.volumeID 60 60 false, r),
   (delPoolCall s o.first, .ok p1), (waitNoPoolCall s o.first, r1),
   (delPoolCall s o.second, .ok p2), (waitNoPoolCall s o.second, r2)]

/-- The final states `exit` can reach from `s` with loop order `o`. -/
inductive ExitEnds (s : Globals) (o : MapOrder) : Globals → Prop
  | skip (hc : s.shouldCleanUp = false) (con : List String) : ExitEnds s o
      { s with console := con }
  | delVolErr (hc : s.shouldCleanUp = true) (e : String) (con : List String) : ExitEnds s o
      { s with trace := s.trace ++ [(delVolCall s, .error e)], exitCode := 1, console := con }
  | delPool1Err (hc : s.shouldCleanUp = true) (dv : Option String) (r : Resp) (e : String)
      (con : List String) : ExitEnds s o
      { s with trace := s.trace ++ [(delVolCall s, .ok dv),
                 (Call.WaitForNoANFResource s.volumeID 60 60 false, r),
                 (delPoolCall s o.first, .error e)],
               exitCode := 1, console := con }
  | delPool2Err (hc : s.shouldCleanUp = true) (dv : Option String) (r : Resp)
      (p1 : Option String) (r1 : Resp) (e : String) (con : List String) : ExitEnds s o
      { s with trace := s.trace ++ [(delVolCall s, .ok dv),
                 (Call.WaitForNoANFResource s.volumeID 60 60 false, r),
                 (delPoolCall s o.first, .ok p1), (waitNoPoolCall s o.first, r1),
                 (delPoolCall s o.second, .error e)],
               exitCode := 1, console := con }
  | delAcctErr (hc : s.shouldCleanUp = true) (dv : Option String) (r : Resp)
      (p1 : Option String) (r1 : Resp) (p2 : Option String) (r2 : Resp) (e : String)
      (con : List String) : ExitEnds s o
      { s with trace := s.trace ++ (teardownEvents s o dv r p1 r1 p2 r2 ++
                 [(delAcctCall s, .error e)]),
               exitCode := 1, console := con }
  | ok (hc : s.shouldCleanUp = true) (dv : Option String) (r : Resp)
      (p1 : Option String) (r1 : Resp) (p2 : Option String) (r2 : Resp) (u : Option String)
      (con : List String) : ExitEnds s o
      { s with trace := s.trace ++ (teardownEvents s o dv r p1 r1 p2 r2 ++
                 [(delAcctCall s, .ok u)]),
               console := con }

/-- Creation calls: account, capacity pool, volume. -/
def Call.isCreate : Call → Bool
  | .CreateANFAccount .. => true
  | .CreateANFCapacityPool .. => true
  | .CreateANFVolume .. => true
  | _ => false

/-- The account creation call. -/
def Call.isCreateAccount : Call → Bool
  | .CreateANFAccount .. => true
  | _ => false

/-- The volume creation call. -/
def Call.isCreateVolume : Call → Bool
  | .CreateANFVolume .. => true
  | _ => false

/-- The readiness wait `WaitForANFResource`. -/
def Call.isWaitReady : Call → Bool
  | .WaitForANFResource .. => true
  | _ => false

/-- The pool-change call `MoveANFVolumeToNewPool`. -/
def Call.isMove : Call → Bool
  | .MoveANFVolumeToNewPool .. => true
  | _ => false

/-- Deletion calls: volume, capacity pool, account. -/
def Call.isDelete : Call → Bool
  | .DeleteANFVolume .. => true
  | .DeleteANFCapacityPool .. => true
  | .DeleteANFAccount .. => true
  | _ => false

/-- The volume deletion call. -/
def Call.isDeleteVolume : Call → Bool
  | .DeleteANFVolume .. => true
  | _ => false

/-- The wait-for-absence check `WaitForNoANFResource`. -/
def Call.isWaitNo : Call → Bool
  | .WaitForNoANFResource .. => true
  | _ => false

/-- Calls made by `main` (validation, creation, readiness wait, pool change). -/
def Call.isMainStep : Call → Bool
  | .ReadAzureBasicInfoJSON => true
  | .GetResourceByID .. => true
  | .CreateANFAccount .. => true
  | .CreateANFCapacityPool .. => true
  | .CreateANFVolume .. => true
  | .WaitForANFResource .. => true
  | .MoveANFVolumeToNewPool .. => true
  | _ => false

/-- The name of the pool a `CreateANFCapacityPool` call creates. -/
def Call.createdPool : Call → Option String
  | .CreateANFCapacityPool _ _ _ poolName _ _ _ => some poolName
  | _ => none

/-- The pool-name coordinate under which a call addresses the volume. -/
def Call.volumePool : Call → Option String
  | .CreateANFVolume _ _ _ poolName _ _ _ _ _ _ _ _ _ => some poolName
  | .MoveANFVolumeToNewPool _ _ poolName _ _ => some poolName
  | .DeleteANFVolume _ _ poolName _ => some poolName
  | _ => none

/-- The service-level argument of a volume creation call. -/
def Call.volumeLevel : Call → Option String
  | .CreateANFVolume _ _ _ _ _ serviceLevel _ _ _ _ _ _ _ => some serviceLevel
  | _ => none

/-- The `NewPoolResourceID` carried by a pool-change request. -/
def Call.newPoolResourceID : Call → Option String
  | .MoveANFVolumeToNewPool _ _ _ _ newPoolResourceID => some newPoolResourceID
  | _ => none

/-- The subnet lookup `GetResourceByID`. -/
def Call.isSubnetLookup : Call → Bool
  | .GetResourceByID .. => true
  | _ => false

/-- The account deletion call. -/
def Call.isDeleteAccount : Call → Bool
  | .DeleteANFAccount .. => true
  | _ => false

/-- The name of the pool a `DeleteANFCapacityPool` call deletes. -/
def Call.deletedPool : Call → Option String
  | .DeleteANFCapacityPool _ _ poolName => some poolName
  | _ => none

/-- Calls whose answer carries an identifier that `main` dereferences: the
auth-file read and the three kinds of creation. -/
def Call.returnsID : Call → Bool
  | .ReadAzureBasicInfoJSON => true
  | .CreateANFAccount .. => true
  | .CreateANFCapacityPool .. => true
  | .CreateANFVolume .. => true
  | _ => false

/-- Calls made by `exit`: deletions and wait-for-absence checks. -/
def Call.isTeardown : Call → Bool
  | .DeleteANFVolume .. => true
  | .DeleteANFCapacityPool .. => true
  | .DeleteANFAccount .. => true
  | .WaitForNoANFResource .. => true
  | _ => false

/-- An answer with a non-nil error. -/
def failed : Resp → Bool
  | .error _ => true
  | .ok _ => false

/-- A successful answer whose identifier pointer is nil. -/
def isNil : Resp → Bool
  | .ok none => true
  | _ => false

/-- Services that answer every call successfully, with distinct identifiers
for the account, each pool and the volume. -/
def envOk : Env := fun _ c =>
  match c with
  | .ReadAzureBasicInfoJSON => .ok (some "sub-0")
  | .CreateANFAccount .. => .ok (some "/accounts/a")
  | .CreateANFCapacityPool _ _ _ poolName _ _ _ => .ok (some ("/pools/" ++ poolName))
  | .CreateANFVolume .. => .ok (some "/volumes/v")
  | _ => .ok none

/-- Services that fail exactly the calls selected by `bad` and otherwise
answer like `envOk`. -/
def envFailOn (bad : Call → Bool) : Env := fun hist c =>
  if bad c then .error "failed" else envOk hist c

/-- Checks `Q pre x post` at every position `x` of a list, where `pre` (after
the given prefix) and `post` are the parts before and after `x`. -/
def splitAll {α : Type} (Q : List α → α → List α → Bool) (p : List α) : List α → Bool
  | [] => true
  | x :: post => Q p x post && splitAll Q (p ++ [x]) post

/-- Services whose subnet lookup answers "NotFound". -/
def envNoSubnet : Env := fun hist c =>
  match c with
  | .GetResourceByID .. => .error "NotFound"
  | _ => envOk hist c

/-- The calls of a fully successful run with cleanup, pools created Source
first and deleted Destination first. -/
def traceOk : List Event := (run envOk .sourceFirst .destinationFirst true "acct").trace

/-- Services that answer like `envOk`, except that the volume creation
succeeds with a nil identifier. -/
def envNilVolumeID : Env := fun hist c =>
  match c with
  | .CreateANFVolume .. => .ok none
  | _ => envOk hist c

/-! ## Step lemmas: every way the program can end -/

theorem MapOrder.keys_eq (o : MapOrder) : o.keys = [o.first, o.second] := by
  cases o <;> rfl

theorem Pools.setID_name (p : Pools) (k k2 : PoolKey) (id : String) :
    ((p.setID k id).get k2).CapacityPoolName = (p.get k2).CapacityPoolName := by
  cases k <;> cases k2 <;> rfl

theorem Pools.setID_level (p : Pools) (k k2 : PoolKey) (id : String) :
    ((p.setID k id).get k2).ServiceLevel = (p.get k2).ServiceLevel := by
  cases k <;> cases k2 <;> rfl

theorem createPools_spec (env : Env) (k1 k2 : PoolKey) (s : Globals) :
    (∃ e con, createPools env [k1, k2] s = .ret
      { s with trace := s.trace ++ [(poolCall s k1, .error e)], exitCode := 1,
               shouldCleanUp := false, console := con })
    ∨ (∃ con, createPools env [k1, k2] s = .ret
      { s with trace := s.trace ++ [(poolCall s k1, .ok none)], console := con })
    ∨ (∃ id1 e con, createPools env [k1, k2] s = .ret
      { s with trace := s.trace ++ [(poolCall s k1, .ok (some id1)), (poolCall s k2, .error e)],
               pools := s.pools.setID k1 id1, exitCode := 1, shouldCleanUp := false,
               console := con })
    ∨ (∃ id1 con, createPools env [k1, k2] s = .ret
      { s with trace := s.trace ++ [(poolCall s k1, .ok (some id1)), (poolCall s k2, .ok none)],
               pools := s.pools.setID k1 id1, console := con })
    ∨ (∃ id1 id2 con s1, createPools env [k1, k2] s = .next s1 ∧ s1 =
      { s with trace := s.trace ++ [(poolCall s k1, .ok (some id1)),
                 (poolCall s k2, .ok (some id2))],
               pools := (s.pools.setID k1 id1).setID k2 id2, console := con }) := by
  simp only [createPools, ConsoleOutput, record, failMain, nilPanic, poolCall, Pools.setID_name,
    Pools.setID_level]
  split
  · left; exact ⟨_, _, rfl⟩
  · right; left; exact ⟨_, rfl⟩
  · right; right
    split
    · left
      exact ⟨_, _, _, by simp only [List.append_assoc, List.cons_append, List.nil_append]; rfl⟩
    · right; left
      exact ⟨_, _, by simp only [List.append_assoc, List.cons_append, List.nil_append]; rfl⟩
    · right; right
      exact ⟨_, _, _, _, rfl,
        by simp only [List.append_assoc, List.cons_append, List.nil_append]; rfl⟩

theorem mainVolume_spec (env : Env) (sub : String) (s : Globals) :
    (∃ e con, mainVolume env sub s =
      { s with trace := s.trace ++ [(volCall s sub, .error e)], exitCode := 1,
               shouldCleanUp := false, console := con })
    ∨ (∃ con, mainVolume env sub s =
      { s with trace := s.trace ++ [(volCall s sub, .ok none)], console := con })
    ∨ (∃ vid e con, mainVolume env sub s =
      { s with trace := s.trace ++ [(volCall s sub, .ok (some vid)),
                 (Call.WaitForANFResource vid 60 50 false, .error e)],
               volumeID := vid, exitCode := 1, shouldCleanUp := false, console := con })
    ∨ (∃ vid w e con, mainVolume env sub s =
      { s with trace := s.trace ++ [(volCall s sub, .ok (some vid)),
                 (Call.WaitForANFResource vid 60 50 false, .ok w), (moveCall s, .error e)],
               volumeID := vid, exitCode := 1, shouldCleanUp := false, console := con })
    ∨ (∃ vid w u con, mainVolume env sub s =
      { s with trace := s.trace ++ [(volCall s sub, .ok (some vid)),
                 (Call.WaitForANFResource vid 60 50 false, .ok w), (moveCall s, .ok u)],
               volumeID := vid, console := con }) := by
  unfold mainVolume
  simp only [ConsoleOutput, record, failMain, nilPanic, volCall, moveCall]
  split
  · left; exact ⟨_, _, rfl⟩
  · right; left; exact ⟨_, rfl⟩
  · right; right
    split
    · left
      exact ⟨_, _, _, by simp only [List.append_assoc, List.cons_append, List.nil_append]; rfl⟩
    · right
      split
      · left
        exact ⟨_, _, _, _,
          by simp only [List.append_assoc, List.cons_append, List.nil_append]; rfl⟩
      · right
        exact ⟨_, _, _, _,
          by simp only [List.append_assoc, List.cons_append, List.nil_append]; rfl⟩

theorem mainPools_spec (env : Env) (o : MapOrder) (sub : String) (s : Globals) :
    (∃ e con, mainPools env o sub s =
      { s with trace := s.trace ++ [(poolCall s o.first, .error e)], exitCode := 1,
               shouldCleanUp := false, console := con })
    ∨ (∃ con, mainPools env o sub s =
      { s with trace := s.trace ++ [(poolCall s o.first, .ok none)], console := con })
    ∨ (∃ id1 e con, mainPools env o sub s =
      { s with trace := s.trace ++ [(poolCall s o.first, .ok (some id1)),
                 (poolCall s o.second, .error e)],
               pools := s.pools.setID o.first id1, exitCode := 1, shouldCleanUp := false,
               console := con })
    ∨ (∃ id1 con, mainPools env o sub s =
      { s with trace := s.trace ++ [(poolCall s o.first, .ok (some id1)),
                 (poolCall s o.second, .ok none)],
               pools := s.pools.setID o.first id1, console := con })
    ∨ (∃ id1 id2 e con, mainPools env o sub s =
      { s with trace := s.trace ++ [(poolCall s o.first, .ok (some id1)),
                 (poolCall s o.second, .ok (some id2)), (volCall s sub, .error e)],
               pools := (s.pools.setID o.first id1).setID o.second id2,
               exitCode := 1, shouldCleanUp := false, console := con })
    ∨ (∃ id1 id2 con, mainPools env o sub s =
      { s with trace := s.trace ++ [(poolCall s o.first, .ok (some id1)),
                 (poolCall s o.second, .ok (some id2)), (volCall s sub, .ok none)],
               pools := (s.pools.setID o.first id1).setID o.second id2, console := con })
    ∨ (∃ id1 id2 vid e con, mainPools env o sub s =
      { s with trace := s.trace ++ [(poolCall s o.first, .ok (some id1)),
                 (poolCall s o.second, .ok (some id2)), (volCall s sub, .ok (some vid)),
                 (Call.WaitForANFResource vid 60 50 false, .error e)],
               pools := (s.pools.setID o.first id1).setID o.second id2,
               volumeID := vid, exitCode := 1, shouldCleanUp := false, console := con })
    ∨ (∃ id1 id2 vid w e con, mainPools env o sub s =
      { s with trace := s.trace ++ [(poolCall s o.first, .ok (some id1)),
                 (poolCall s o.second, .ok (some id2)), (volCall s sub, .ok (some vid)),
                 (Call.WaitForANFResource vid 60 50 false, .ok w),
                 (moveCall { s with pools := (s.pools.setID o.first id1).setID o.second id2 },
                   .error e)],
               pools := (s.pools.setID o.first id1).setID o.second id2,
               volumeID := vid, exitCode := 1, shouldCleanUp := false, console := con })
    ∨ (∃ id1 id2 vid w u con, mainPools env o sub s =
      { s with trace := s.trace ++ [(poolCall s o.first, .ok (some id1)),
                 (poolCall s o.second, .ok (some id2)), (volCall s sub, .ok (some vid)),
                 (Call.WaitForANFResource vid 60 50 false, .ok w),
                 (moveCall { s with pools := (s.pools.setID o.first id1).setID o.second id2 },
                   .ok u)],
               pools := (s.pools.setID o.first id1).setID o.second id2,
               volumeID := vid, console := con }) := by
  unfold mainPools
  rw [MapOrder.keys_eq]
  rcases createPools_spec env o.first o.second s with
    ⟨e, con, h⟩ | ⟨con, h⟩ | ⟨id1, e, con, h⟩ | ⟨id1, con, h⟩ | ⟨id1, id2, con, s1, h, hs1⟩
  · rw [h]; left; exact ⟨e, con, rfl⟩
  · rw [h]; right; left; exact ⟨con, rfl⟩
  · rw [h]; right; right; left; exact ⟨id1, e, con, rfl⟩
  · rw [h]; right; right; right; left; exact ⟨id1, con, rfl⟩
  · rw [h]
    simp only []
    right; right; right; right
    rcases mainVolume_spec env sub s1 with
      ⟨e, c2, h2⟩ | ⟨c2, h2⟩ | ⟨vid, e, c2, h2⟩ | ⟨vid, w, e, c2, h2⟩ | ⟨vid, w, u, c2, h2⟩
    · left
      refine ⟨id1, id2, e, c2, ?_⟩
      rw [h2, hs1]
      simp [volCall, Pools.setID_name, Pools.setID_level]
    · right; left
      refine ⟨id1, id2, c2, ?_⟩
      rw [h2, hs1]
      simp [volCall, Pools.setID_name, Pools.setID_level]
    · right; right; left
      refine ⟨id1, id2, vid, e, c2, ?_⟩
      rw [h2, hs1]
      simp [volCall, Pools.setID_name, Pools.setID_level]
    · right; right; right; left
      refine ⟨id1, id2, vid, w, e, c2, ?_⟩
      rw [h2, hs1]
      simp [volCall, moveCall, Pools.setID_name, Pools.setID_level]
    · right; right; right; right
      refine ⟨id1, id2, vid, w, u, c2, ?_⟩
      rw [h2, hs1]
      simp [volCall, moveCall, Pools.setID_name, Pools.setID_level]

theorem deletePools_spec (env : Env) (k1 k2 : PoolKey) (s : Globals) :
    (∃ e con, deletePools env [k1, k2] s = .ret
      { s with trace := s.trace ++ [(delPoolCall s k1, .error e)], exitCode := 1,
               console := con })
    ∨ (∃ v r e con, deletePools env [k1, k2] s = .ret
      { s with trace := s.trace ++ [(delPoolCall s k1, .ok v), (waitNoPoolCall s k1, r),
                 (delPoolCall s k2, .error e)],
               exitCode := 1, console := con })
    ∨ (∃ v r v2 r2 con s1, deletePools env [k1, k2] s = .next s1 ∧ s1 =
      { s with trace := s.trace ++ [(delPoolCall s k1, .ok v), (waitNoPoolCall s k1, r),
                 (delPoolCall s k2, .ok v2), (waitNoPoolCall s k2, r2)],
               console := con }) := by
  simp only [deletePools, ConsoleOutput, record, delPoolCall, waitNoPoolCall]
  split
  · left; exact ⟨_, _, rfl⟩
  · right
    split
    · left
      exact ⟨_, _, _, _, by simp only [List.append_assoc, List.cons_append, List.nil_append]; rfl⟩
    · right
      exact ⟨_, _, _, _, _, _, rfl,
        by simp only [List.append_assoc, List.cons_append, List.nil_append]; rfl⟩

theorem main_spec (env : Env) (o : MapOrder) (s : Globals) :
    (∃ e con, main env o s =
      { s with trace := s.trace ++ [(Call.ReadAzureBasicInfoJSON, .error e)], exitCode := 1,
               shouldCleanUp := false, console := con })
    ∨ (∃ con, main env o s =
      { s with trace := s.trace ++ [(Call.ReadAzureBasicInfoJSON, .ok none)], console := con })
    ∨ (∃ sub e con, main env o s =
      { s with trace := s.trace ++ [(Call.ReadAzureBasicInfoJSON, .ok (some sub)),
                 (subnetCall sub, .error e)],
               exitCode := 1, shouldCleanUp := false, console := con })
    ∨ (∃ sub v e con, main env o s =
      { s with trace := s.trace ++ [(Call.ReadAzureBasicInfoJSON, .ok (some sub)),
                 (subnetCall sub, .ok v), (acctCall s, .error e)],
               exitCode := 1, shouldCleanUp := false, console := con })
    ∨ (∃ sub v con, main env o s =
      { s with trace := s.trace ++ [(Call.ReadAzureBasicInfoJSON, .ok (some sub)),
                 (subnetCall sub, .ok v), (acctCall s, .ok none)],
               console := con })
    ∨ (∃ sub v aid con s1, main env o s = mainPools env o (subnetIDOf sub) s1 ∧ s1 =
      { s with trace := s.trace ++ [(Call.ReadAzureBasicInfoJSON, .ok (some sub)),
                 (subnetCall sub, .ok v), (acctCall s, .ok (some aid))],
               accountID := aid, console := con }) := by
  unfold main
  simp only [ConsoleOutput, record, failMain, nilPanic, subnetCall, acctCall]
  split
  · left; exact ⟨_, _, rfl⟩
  · right; left; exact ⟨_, rfl⟩
  · right; right
    split
    · left
      split <;>
      exact ⟨_, _, _, by simp only [List.append_assoc, List.cons_append, List.nil_append]; rfl⟩
    · right
      split
      · left
        exact ⟨_, _, _, _,
          by simp only [List.append_assoc, List.cons_append, List.nil_append]; rfl⟩
      · right; left
        exact ⟨_, _, _,
          by simp only [List.append_assoc, List.cons_append, List.nil_append]; rfl⟩
      · right; right
        exact ⟨_, _, _, _, _, rfl,
          by simp only [List.append_assoc, List.cons_append, List.nil_append]; rfl⟩

theorem exitAccount_spec (env : Env) (s : Globals) :
    (∃ e con, exitAccount env s =
      { s with trace := s.trace ++ [(delAcctCall s, .error e)], exitCode := 1, console := con })
    ∨ (∃ u con, exitAccount env s =
      { s with trace := s.trace ++ [(delAcctCall s, .ok u)], console := con }) := by
  unfold exitAccount
  simp only [ConsoleOutput, record, delAcctCall]
  split
  · left; exact ⟨_, _, rfl⟩
  · right; exact ⟨_, _, rfl⟩

theorem exitPools_spec (env : Env) (o : MapOrder) (s : Globals) :
    (∃ e con, exitPools env o s =
      { s with trace := s.trace ++ [(delPoolCall s o.first, .error e)], exitCode := 1,
               console := con })
    ∨ (∃ v r e con, exitPools env o s =
      { s with trace := s.trace ++ [(delPoolCall s o.first, .ok v),
                 (waitNoPoolCall s o.first, r), (delPoolCall s o.second, .error e)],
               exitCode := 1, console := con })
    ∨ (∃ v r v2 r2 e con, exitPools env o s =
      { s with trace := s.trace ++ [(delPoolCall s o.first, .ok v),
                 (waitNoPoolCall s o.first, r), (delPoolCall s o.second, .ok v2),
                 (waitNoPoolCall s o.second, r2), (delAcctCall s, .error e)],
               exitCode := 1, console := con })
    ∨ (∃ v r v2 r2 u con, exitPools env o s =
      { s with trace := s.trace ++ [(delPoolCall s o.first, .ok v),
                 (waitNoPoolCall s o.first, r), (delPoolCall s o.second, .ok v2),
                 (waitNoPoolCall s o.second, r2), (delAcctCall s, .ok u)],
               console := con }) := by
  unfold exitPools
  rw [MapOrder.keys_eq]
  rcases deletePools_spec env o.first o.second s with
    ⟨e, con, h⟩ | ⟨v, r, e, con, h⟩ | ⟨v, r, v2, r2, con, s1, h, hs1⟩
  · rw [h]; left; exact ⟨e, con, rfl⟩
  · rw [h]; right; left; exact ⟨v, r, e, con, rfl⟩
  · rw [h]
    simp only []
    right; right
    rcases exitAccount_spec env s1 with ⟨e, c2, h2⟩ | ⟨u, c2, h2⟩
    · left
      refine ⟨v, r, v2, r2, e, c2, ?_⟩
      rw [h2, hs1]
      simp [delAcctCall]
    · right
      refine ⟨v, r, v2, r2, u, c2, ?_⟩
      rw [h2, hs1]
      simp [delAcctCall]

theorem exit_spec (env : Env) (o : MapOrder) (s : Globals) :
    (s.shouldCleanUp = false ∧ ∃ con, exit env o s = { s with console := con })
    ∨ (s.shouldCleanUp = true ∧ ∃ e con, exit env o s =
      { s with trace := s.trace ++ [(delVolCall s, .error e)], exitCode := 1, console := con })
    ∨ (s.shouldCleanUp = true ∧ ∃ v r con s1, exit env o s = exitPools env o s1 ∧ s1 =
      { s with trace := s.trace ++ [(delVolCall s, .ok v),
                 (Call.WaitForNoANFResource s.volumeID 60 60 false, r)],
               console := con }) := by
  unfold exit
  cases hc : s.shouldCleanUp
  · left
    simp only [ConsoleOutput, hc]
    exact ⟨trivial, _, rfl⟩
  · right
    simp only [ConsoleOutput, hc, record, delVolCall, if_true]
    split
    · left; exact ⟨trivial, _, _, rfl⟩
    · right
      exact ⟨trivial, _, _, _, _, rfl,
        by simp only [List.append_assoc, List.cons_append, List.nil_append]; rfl⟩

theorem main_ends (env : Env) (o : MapOrder) (s : Globals) : MainEnds s o (main env o s) := by
  rcases main_spec env o s with
    ⟨e, con, h⟩ | ⟨con, h⟩ | ⟨sub, e, con, h⟩ | ⟨sub, v, e, con, h⟩ | ⟨sub, v, con, h⟩
    | ⟨sub, v, aid, con, s1, h, hs1⟩
  · rw [h]; exact .authErr e con
  · rw [h]; exact .authNil con
  · rw [h]; exact .subnetErr sub e con
  · rw [h]; exact .acctErr sub v e con
  · rw [h]; exact .acctNil sub v con
  · rw [h]
    rcases mainPools_spec env o (subnetIDOf sub) s1 with
      ⟨e, c2, h2⟩ | ⟨c2, h2⟩ | ⟨id1, e, c2, h2⟩ | ⟨id1, c2, h2⟩ | ⟨id1, id2, e, c2, h2⟩
      | ⟨id1, id2, c2, h2⟩ | ⟨id1, id2, vid, e, c2, h2⟩ | ⟨id1, id2, vid, w, e, c2, h2⟩
      | ⟨id1, id2, vid, w, u, c2, h2⟩
    · rw [h2, hs1]
      have := @MainEnds.pool1Err s o sub v aid e c2
      simpa [accountEvents, poolCall] using this
    · rw [h2, hs1]
      have := @MainEnds.pool1Nil s o sub v aid c2
      simpa [accountEvents, poolCall] using this
    · rw [h2, hs1]
      have := @MainEnds.pool2Err s o sub v aid id1 e c2
      simpa [accountEvents, poolCall] using this
    · rw [h2, hs1]
      have := @MainEnds.pool2Nil s o sub v aid id1 c2
      simpa [accountEvents, poolCall] using this
    · rw [h2, hs1]
      have := @MainEnds.volErr s o sub v aid id1 id2 e c2
      simpa [accountEvents, poolEvents, poolsAfter, poolCall, volCall] using this
    · rw [h2, hs1]
      have := @MainEnds.volNil s o sub v aid id1 id2 c2
      simpa [accountEvents, poolEvents, poolsAfter, poolCall, volCall] using this
    · rw [h2, hs1]
      have := @MainEnds.waitErr s o sub v aid id1 id2 vid e c2
      simpa [accountEvents, poolEvents, poolsAfter, poolCall, volCall] using this
    · rw [h2, hs1]
      have := @MainEnds.moveErr s o sub v aid id1 id2 vid w e c2
      simpa [accountEvents, poolEvents, poolsAfter, poolCall, volCall, moveCall] using this
    · rw [h2, hs1]
      have := @MainEnds.ok s o sub v aid id1 id2 vid w u c2
      simpa [accountEvents, poolEvents, mainEvents, poolsAfter, poolCall, volCall, moveCall]
        using this

theorem exit_ends (env : Env) (o : MapOrder) (s : Globals) : ExitEnds s o (exit env o s) := by
  rcases exit_spec env o s with
    ⟨hc, con, h⟩ | ⟨hc, e, con, h⟩ | ⟨hc, dv, r, con, s1, h, hs1⟩
  · rw [h]; exact .skip hc con
  · rw [h]; exact .delVolErr hc e con
  · rw [h]
    rcases exitPools_spec env o s1 with
      ⟨e, c2, h2⟩ | ⟨p1, r1, e, c2, h2⟩ | ⟨p1, r1, p2, r2, e, c2, h2⟩
      | ⟨p1, r1, p2, r2, u, c2, h2⟩
    · rw [h2, hs1]
      have := @ExitEnds.delPool1Err s o hc dv r e c2
      simpa [delPoolCall] using this
    · rw [h2, hs1]
      have := @ExitEnds.delPool2Err s o hc dv r p1 r1 e c2
      simpa [delPoolCall, waitNoPoolCall] using this
    · rw [h2, hs1]
      have := @ExitEnds.delAcctErr s o hc dv r p1 r1 p2 r2 e c2
      simpa [teardownEvents, delPoolCall, waitNoPoolCall, delAcctCall] using this
    · rw [h2, hs1]
      have := @ExitEnds.ok s o hc dv r p1 r1 p2 r2 u c2
      simpa [teardownEvents, delPoolCall, waitNoPoolCall, delAcctCall] using this

theorem splitAll_sound {α : Type} (Q : List α → α → List α → Bool) (t : List α) :
    ∀ p : List α, splitAll Q p t = true →
      ∀ pre ev post, t = pre ++ ev :: post → Q (p ++ pre) ev post = true := by
  induction t with
  | nil =>
    intro p _ pre ev post h
    simp at h
  | cons a l ih =>
    intro p h pre ev post hl
    simp only [splitAll, Bool.and_eq_true] at h
    cases pre with
    | nil =>
      simp only [List.nil_append, List.cons.injEq] at hl
      obtain ⟨rfl, rfl⟩ := hl
      simpa using h.1
    | cons b pre =>
      simp only [List.cons_append, List.cons.injEq] at hl
      obtain ⟨rfl, hl⟩ := hl
      have := ih (p ++ [a]) h.2 pre ev post hl
      simpa using this

theorem split_in_left {α : Type} (Q : α → Bool) {t1 t2 pre post : List α} {ev : α}
    (h : t1 ++ t2 = pre ++ ev :: post) (hq : Q ev = true)
    (h2 : t2.all (fun x => !Q x) = true) :
    ∃ post1, t1 = pre ++ ev :: post1 ∧ post = post1 ++ t2 := by
  have hnot : ev ∉ t2 := by
    intro hmem
    have := List.all_eq_true.1 h2 ev hmem
    simp [hq] at this
  rcases List.append_eq_append_iff.1 h with ⟨a, _, ha⟩ | ⟨c, hc, hc2⟩
  · exact absurd (by rw [ha]; exact List.mem_append_right _ (List.mem_cons_self _ _)) hnot
  · cases c with
    | nil =>
      simp only [List.nil_append] at hc2
      exact absurd (by rw [← hc2]; exact List.mem_cons_self _ _) hnot
    | cons b c =>
      simp only [List.cons_append, List.cons.injEq] at hc2
      obtain ⟨rfl, rfl⟩ := hc2
      exact ⟨c, hc, rfl⟩

theorem split_in_right {α : Type} (Q : α → Bool) {t1 t2 pre post : List α} {ev : α}
    (h : t1 ++ t2 = pre ++ ev :: post) (hq : Q ev = true)
    (h1 : t1.all (fun x => !Q x) = true) :
    ∃ pre2, t2 = pre2 ++ ev :: post ∧ pre = t1 ++ pre2 := by
  have hnot : ev ∉ t1 := by
    intro hmem
    have := List.all_eq_true.1 h1 ev hmem
    simp [hq] at this
  rcases List.append_eq_append_iff.1 h with ⟨a, ha, ha2⟩ | ⟨c, hc, hc2⟩
  · exact ⟨a, ha2, ha⟩
  · cases c with
    | nil =>
      simp only [List.nil_append] at hc2
      simp only [List.append_nil] at hc
      exact ⟨[], by simpa using hc2.symm, by simpa using hc.symm⟩
    | cons b c =>
      simp only [List.cons_append, List.cons.injEq] at hc2
      obtain ⟨rfl, _⟩ := hc2
      exact absurd (by rw [hc]; exact List.mem_append_right _ (List.mem_cons_self _ _)) hnot

theorem forall_split_nil {α : Type} (P : List α → α → List α → Prop) :
    (∀ pre x post, ([] : List α) = pre ++ x :: post → P pre x post) ↔ True := by
  simp

theorem forall_split_cons {α : Type} (P : List α → α → List α → Prop) (a : α) (l : List α) :
    (∀ pre x post, a :: l = pre ++ x :: post → P pre x post)
      ↔ (P [] a l ∧ ∀ pre x post, l = pre ++ x :: post → P (a :: pre) x post) := by
  constructor
  · intro h
    exact ⟨h [] a l rfl, fun pre x post hl => h (a :: pre) x post (by rw [hl]; rfl)⟩
  · rintro ⟨h0, h1⟩ pre x post hl
    cases pre with
    | nil =>
      simp only [List.nil_append, List.cons.injEq] at hl
      obtain ⟨rfl, rfl⟩ := hl
      exact h0
    | cons b pre =>
      simp only [List.cons_append, List.cons.injEq] at hl
      obtain ⟨rfl, hl⟩ := hl
      exact h1 pre x post hl

theorem all_imp {α : Type} {p q : α → Bool} {l : List α} (h : l.all p = true)
    (hpq : ∀ x, p x = true → q x = true) : l.all q = true := by
  rw [List.all_eq_true] at h ⊢
  exact fun x hx => hpq x (h x hx)

theorem exit_events {s r : Globals} {o : MapOrder} (he : ExitEnds s o r) :
    ∃ evs, r.trace = s.trace ++ evs ∧ evs.all (fun x => x.1.isTeardown) = true
      ∧ (evs ≠ [] → s.shouldCleanUp = true) := by
  cases he with
  | skip hc con => exact ⟨[], (List.append_nil _).symm, rfl, fun h => absurd rfl h⟩
  | delVolErr hc e con => exact ⟨_, rfl, rfl, fun _ => hc⟩
  | delPool1Err hc dv r e con => exact ⟨_, rfl, rfl, fun _ => hc⟩
  | delPool2Err hc dv r p1 r1 e con => exact ⟨_, rfl, rfl, fun _ => hc⟩
  | delAcctErr hc dv r p1 r1 p2 r2 e con => exact ⟨_, rfl, rfl, fun _ => hc⟩
  | ok hc dv r p1 r1 p2 r2 u con => exact ⟨_, rfl, rfl, fun _ => hc⟩

theorem main_events {name : String} {cleanup : Bool} {o : MapOrder} {m : Globals}
    (hm : MainEnds (initGlobals cleanup name) o m) :
    m.trace.all (fun x => x.1.isMainStep) = true := by
  cases hm <;> rfl

theorem move_in_main (env : Env) (o1 o2 : MapOrder) (cleanup : Bool) (name : String)
    {pre post : List Event} {ev : Event}
    (ht : (run env o1 o2 cleanup name).trace = pre ++ ev :: post)
    (hm : ev.1.isMove = true) :
    ∃ post1, (main env o1 (initGlobals cleanup name)).trace = pre ++ ev :: post1 := by
  obtain ⟨evs, hr, htd, _⟩ := exit_events (exit_ends env o2 (main env o1 (initGlobals cleanup name)))
  have ht2 : (main env o1 (initGlobals cleanup name)).trace ++ evs = pre ++ ev :: post :=
    hr.symm.trans ht
  obtain ⟨post1, h1, _⟩ := split_in_left (fun x => x.1.isMove) ht2 hm
    (all_imp htd (fun x hx => by cases hc : x.1 <;> simp_all [Call.isTeardown, Call.isMove]))
  exact ⟨post1, h1⟩

theorem delete_in_exit (env : Env) (o1 o2 : MapOrder) (cleanup : Bool) (name : String)
    {pre post : List Event} {ev : Event}
    (ht : (run env o1 o2 cleanup name).trace = pre ++ ev :: post)
    (hd : ev.1.isDelete = true) :
    ∃ pre2, pre = (main env o1 (initGlobals cleanup name)).trace ++ pre2
      ∧ (exit env o2 (main env o1 (initGlobals cleanup name))).trace
          = (main env o1 (initGlobals cleanup name)).trace ++ (pre2 ++ ev :: post)
      ∧ (main env o1 (initGlobals cleanup name)).shouldCleanUp = true := by
  obtain ⟨evs, hr, _, hne⟩ :=
    exit_events (exit_ends env o2 (main env o1 (initGlobals cleanup name)))
  have ht2 : (main env o1 (initGlobals cleanup name)).trace ++ evs = pre ++ ev :: post :=
    hr.symm.trans ht
  obtain ⟨pre2, h2, h1⟩ := split_in_right (fun x => x.1.isDelete) ht2 hd
    (all_imp (main_events (main_ends env o1 (initGlobals cleanup name)))
      (fun x hx => by cases hc : x.1 <;> simp_all [Call.isMainStep, Call.isDelete]))
  refine ⟨pre2, h1, by rw [hr, h2], hne ?_⟩
  rw [h2]
  simp

/-! ## Claims -/

theorem subnet_error_aux {name : String} {cleanup : Bool} {o1 o2 : MapOrder} {m r : Globals}
    (hm : MainEnds (initGlobals cleanup name) o1 m) (he : ExitEnds m o2 r)
    (hs : r.trace.any (fun ev => ev.1.isSubnetLookup && failed ev.2) = true) :
    r.trace.all (fun ev => !ev.1.isCreate) = true ∧ r.exitCode = 1 := by
  cases hm <;> cases he <;>
  first
  | exact Bool.noConfusion ‹false = true›
  | exact ⟨rfl, rfl⟩

/-- C1: whenever the subnet lookup (`GetResourceByID`) of a run returns an
error, whatever its text, the run issues no create-account, create-pool or
create-volume call, and the process exits with status 1. -/
theorem C1_subnet_failure (env : Env) (o1 o2 : MapOrder) (cleanup : Bool) (name : String)
    (h : ∃ id v e, (Call.GetResourceByID id v, Except.error e)
      ∈ (run env o1 o2 cleanup name).trace) :
    (∀ ev ∈ (run env o1 o2 cleanup name).trace, ev.1.isCreate = false)
      ∧ (run env o1 o2 cleanup name).exitCode = 1 := by
  obtain ⟨id, v, e, hmem⟩ := h
  have hs : (run env o1 o2 cleanup name).trace.any
      (fun ev => ev.1.isSubnetLookup && failed ev.2) = true :=
    List.any_eq_true.2 ⟨_, hmem, rfl⟩
  obtain ⟨h1, h2⟩ := subnet_error_aux (main_ends env o1 _) (exit_ends env o2 _) hs
  refine ⟨fun ev hev => ?_, h2⟩
  have := List.all_eq_true.1 h1 ev hev
  simpa using this

theorem C1_subnet_failure_witness :
    (∃ id v e, (Call.GetResourceByID id v, Except.error e)
      ∈ (run envNoSubnet .sourceFirst .sourceFirst true "acct").trace)
    ∧ (∀ ev ∈ (run envNoSubnet .sourceFirst .sourceFirst true "acct").trace,
        ev.1.isCreate = false)
    ∧ (run envNoSubnet .sourceFirst .sourceFirst true "acct").exitCode = 1 :=
  have h : ∃ id v e, (Call.GetResourceByID id v, Except.error e)
      ∈ (run envNoSubnet .sourceFirst .sourceFirst true "acct").trace :=
    ⟨_, _, _, @List.getElem?_mem _ _ 1 _ rfl⟩
  ⟨h, C1_subnet_failure envNoSubnet .sourceFirst .sourceFirst true "acct" h⟩

theorem move_after_wait_aux {name : String} {cleanup : Bool} {o1 : MapOrder} {m : Globals}
    (hm : MainEnds (initGlobals cleanup name) o1 m) :
    ∀ pre ev post, m.trace = pre ++ ev :: post → ev.1.isMove = true →
      ∃ vid w cv, pre.dropLast.getLast? = some (cv, Except.ok (some vid))
        ∧ pre.getLast? = some (Call.WaitForANFResource vid 60 50 false, Except.ok w)
        ∧ cv.isCreateVolume = true := by
  cases hm <;>
  simp only [initGlobals, accountEvents, poolEvents, mainEvents,
    subnetCall, acctCall, poolCall, volCall, moveCall,
    List.cons_append, List.nil_append, List.append_assoc] <;>
  simp only [forall_split_cons, forall_split_nil] <;>
  simp only [Call.isMove, Bool.false_eq_true, false_implies, true_implies, and_true, true_and,
    forall_const] <;>
  first
  | trivial
  | (simp; exact ⟨_, _, _, ⟨rfl, rfl⟩, ⟨rfl, rfl⟩, rfl⟩)

theorem ready_wait_ok_aux {name : String} {cleanup : Bool} {o1 o2 : MapOrder} {m r : Globals}
    (hm : MainEnds (initGlobals cleanup name) o1 m) (he : ExitEnds m o2 r)
    (hmv : r.trace.any (fun ev => ev.1.isMove) = true) :
    r.trace.all (fun x => !(x.1.isWaitReady && failed x.2)) = true := by
  cases hm <;> cases he <;>
  first
  | exact Bool.noConfusion ‹false = true›
  | rfl

/-- C2: in every run, for every service behaviour and both iteration orders,
a pool-change call (`MoveANFVolumeToNewPool`) is immediately preceded by a
`WaitForANFResource` call that returned without error and whose resource id
is the id returned by the volume creation call just before it; and in a run
with a pool-change call no readiness wait returned an error (so a failed
readiness wait is never followed by a pool change). -/
theorem C2_move_after_ready (env : Env) (o1 o2 : MapOrder) (cleanup : Bool) (name : String)
    (pre post : List Event) (ev : Event)
    (ht : (run env o1 o2 cleanup name).trace = pre ++ ev :: post)
    (hm : ev.1.isMove = true) :
    (∃ vid w cv, pre.dropLast.getLast? = some (cv, Except.ok (some vid))
        ∧ pre.getLast? = some (Call.WaitForANFResource vid 60 50 false, Except.ok w)
        ∧ cv.isCreateVolume = true)
    ∧ (∀ x ∈ (run env o1 o2 cleanup name).trace,
        x.1.isWaitReady = true → failed x.2 = false) := by
  obtain ⟨post1, h1⟩ := move_in_main env o1 o2 cleanup name ht hm
  refine ⟨move_after_wait_aux (main_ends env o1 _) pre ev post1 h1 hm, ?_⟩
  have hany : (run env o1 o2 cleanup name).trace.any (fun ev => ev.1.isMove) = true :=
    List.any_eq_true.2
      ⟨ev, by rw [ht]; exact List.mem_append_right _ (List.mem_cons_self _ _), hm⟩
  have hall := ready_wait_ok_aux (main_ends env o1 _) (exit_ends env o2 _) hany
  intro x hx hw
  have := List.all_eq_true.1 hall x hx
  simpa [hw] using this

theorem C2_move_after_ready_witness :
    (run envOk .destinationFirst .sourceFirst false "acct").trace
        = (run envOk .destinationFirst .sourceFirst false "acct").trace.take 7
          ++ (Call.MoveANFVolumeToNewPool resourceGroupName "acct" "SourcePremiumPool"
                volumeName "/pools/DestinationStandardPool", Except.ok none) :: []
    ∧ (Call.MoveANFVolumeToNewPool resourceGroupName "acct" "SourcePremiumPool"
          volumeName "/pools/DestinationStandardPool").isMove = true
    ∧ (∃ vid w cv,
        ((run envOk .destinationFirst .sourceFirst false "acct").trace.take 7).dropLast.getLast?
          = some (cv, Except.ok (some vid))
        ∧ ((run envOk .destinationFirst .sourceFirst false "acct").trace.take 7).getLast?
          = some (Call.WaitForANFResource vid 60 50 false, Except.ok w)
        ∧ cv.isCreateVolume = true)
    ∧ (∀ x ∈ (run envOk .destinationFirst .sourceFirst false "acct").trace,
        x.1.isWaitReady = true → failed x.2 = false) :=
  ⟨rfl, rfl,
    C2_move_after_ready envOk .destinationFirst .sourceFirst false "acct" _ [] _ rfl rfl⟩

theorem move_target_aux {name : String} {cleanup : Bool} {o1 : MapOrder} {m : Globals}
    (hm : MainEnds (initGlobals cleanup name) o1 m) :
    ∀ pre ev post, m.trace = pre ++ ev :: post → ev.1.isMove = true →
      ∃ nid c, ev.1.newPoolResourceID = some nid
        ∧ (c, Except.ok (some nid)) ∈ pre
        ∧ c.createdPool = some "DestinationStandardPool" := by
  cases hm <;> cases o1 <;>
  simp only [initGlobals, accountEvents, poolEvents, mainEvents, poolsAfter,
    subnetCall, acctCall, poolCall, volCall, moveCall,
    Pools.get, Pools.setID, MapOrder.first, MapOrder.second,
    List.cons_append, List.nil_append, List.append_assoc] <;>
  simp only [forall_split_cons, forall_split_nil] <;>
  simp only [Call.isMove, Bool.false_eq_true, false_implies, true_implies, and_true, true_and,
    forall_const] <;>
  first
  | trivial
  | exact ⟨_, _, rfl, @List.getElem?_mem _ _ 4 _ rfl, rfl⟩
  | exact ⟨_, _, rfl, @List.getElem?_mem _ _ 3 _ rfl, rfl⟩

theorem one_destination_creation_aux {name : String} {cleanup : Bool} {o1 o2 : MapOrder}
    {m r : Globals} (hm : MainEnds (initGlobals cleanup name) o1 m) (he : ExitEnds m o2 r)
    (hmv : r.trace.any (fun ev => ev.1.isMove) = true) :
    (r.trace.filter (fun x => x.1.createdPool == some "DestinationStandardPool")).length = 1 := by
  cases hm <;> cases he <;>
  first
  | exact Bool.noConfusion ‹false = true›
  | (cases o1 <;> rfl)

/-- C3: in every run and for both orders of the pool-creation loop, the
`NewPoolResourceID` of a pool-change request is the id returned by a
successful `CreateANFCapacityPool` call for "DestinationStandardPool" made
earlier in the run, and that creation call is the only one for this pool. -/
theorem C3_move_target (env : Env) (o1 o2 : MapOrder) (cleanup : Bool) (name : String)
    (pre post : List Event) (ev : Event)
    (ht : (run env o1 o2 cleanup name).trace = pre ++ ev :: post)
    (hm : ev.1.isMove = true) :
    (∃ nid c, ev.1.newPoolResourceID = some nid
        ∧ (c, Except.ok (some nid)) ∈ pre
        ∧ c.createdPool = some "DestinationStandardPool")
    ∧ ((run env o1 o2 cleanup name).trace.filter
        (fun x => x.1.createdPool == some "DestinationStandardPool")).length = 1 := by
  obtain ⟨post1, h1⟩ := move_in_main env o1 o2 cleanup name ht hm
  refine ⟨move_target_aux (main_ends env o1 _) pre ev post1 h1 hm, ?_⟩
  have hany : (run env o1 o2 cleanup name).trace.any (fun ev => ev.1.isMove) = true :=
    List.any_eq_true.2
      ⟨ev, by rw [ht]; exact List.mem_append_right _ (List.mem_cons_self _ _), hm⟩
  exact one_destination_creation_aux (main_ends env o1 _) (exit_ends env o2 _) hany

theorem C3_move_target_witness :
    (run envOk .destinationFirst .sourceFirst false "acct").trace
        = (run envOk .destinationFirst .sourceFirst false "acct").trace.take 7
          ++ (Call.MoveANFVolumeToNewPool resourceGroupName "acct" "SourcePremiumPool"
                volumeName "/pools/DestinationStandardPool", Except.ok none) :: []
    ∧ (Call.MoveANFVolumeToNewPool resourceGroupName "acct" "SourcePremiumPool"
          volumeName "/pools/DestinationStandardPool").isMove = true
    ∧ (∃ nid c,
        (Call.MoveANFVolumeToNewPool resourceGroupName "acct" "SourcePremiumPool"
                volumeName "/pools/DestinationStandardPool").newPoolResourceID = some nid
        ∧ (c, Except.ok (some nid))
            ∈ (run envOk .destinationFirst .sourceFirst false "acct").trace.take 7
        ∧ c.createdPool = some "DestinationStandardPool")
    ∧ ((run envOk .destinationFirst .sourceFirst false "acct").trace.filter
        (fun x => x.1.createdPool == some "DestinationStandardPool")).length = 1 :=
  ⟨rfl, rfl, C3_move_target envOk .destinationFirst .sourceFirst false "acct" _ [] _ rfl rfl⟩

theorem teardown_order_aux {name : String} {o1 o2 : MapOrder} {m r : Globals}
    (hm : MainEnds (initGlobals true name) o1 m) (he : ExitEnds m o2 r)
    (hok : r.trace.all (fun ev => ev.1.isWaitNo || !failed ev.2) = true) :
    (o2 = .sourceFirst → (r.trace.map Prod.fst).filter Call.isDelete =
        [Call.DeleteANFVolume resourceGroupName name "DestinationStandardPool" volumeName,
         Call.DeleteANFCapacityPool resourceGroupName name "SourcePremiumPool",
         Call.DeleteANFCapacityPool resourceGroupName name "DestinationStandardPool",
         Call.DeleteANFAccount resourceGroupName name])
    ∧ (o2 = .destinationFirst → (r.trace.map Prod.fst).filter Call.isDelete =
        [Call.DeleteANFVolume resourceGroupName name "DestinationStandardPool" volumeName,
         Call.DeleteANFCapacityPool resourceGroupName name "DestinationStandardPool",
         Call.DeleteANFCapacityPool resourceGroupName name "SourcePremiumPool",
         Call.DeleteANFAccount resourceGroupName name]) := by
  cases hm <;> cases he <;>
  first
  | exact Bool.noConfusion ‹false = true›
  | exact Bool.noConfusion ‹true = false›
  | (constructor <;> rintro rfl <;> first | rfl | (cases o1 <;> rfl))

theorem main_failure_aux {name : String} {cleanup : Bool} {o1 o2 : MapOrder} {m r : Globals}
    (hm : MainEnds (initGlobals cleanup name) o1 m) (he : ExitEnds m o2 r)
    (hf : r.trace.any (fun ev => ev.1.isMainStep && failed ev.2) = true) :
    r.trace.all (fun ev => !ev.1.isDelete) = true ∧ m.shouldCleanUp = false := by
  cases hm <;> cases he <;>
  first
  | exact Bool.noConfusion ‹false = true›
  | exact ⟨rfl, rfl⟩

theorem exit_code_aux {name : String} {cleanup : Bool} {o1 o2 : MapOrder} {m r : Globals}
    (hm : MainEnds (initGlobals cleanup name) o1 m) (he : ExitEnds m o2 r) :
    (r.exitCode = 0 ∨ r.exitCode = 1)
      ∧ (r.exitCode = 1 ↔ r.trace.any (fun ev => !ev.1.isWaitNo && failed ev.2) = true) := by
  cases hm <;> cases he <;>
  first
  | exact Bool.noConfusion ‹false = true›
  | exact ⟨Or.inr rfl, fun _ => rfl, fun _ => rfl⟩
  | exact ⟨Or.inl rfl, fun hc => absurd hc (show ¬ ((0 : Int) = 1) by decide),
      fun hc => Bool.noConfusion hc⟩

/-- C4: in a run started with `shouldCleanUp = true` in which every call of
`main` and every deletion call succeeds, the deletion calls of the run are
exactly `DeleteANFVolume`, then one `DeleteANFCapacityPool` per pool in the
order of the teardown loop, then `DeleteANFAccount`. -/
theorem C4_teardown_order (env : Env) (o1 o2 : MapOrder) (name : String)
    (hok : ∀ ev ∈ (run env o1 o2 true name).trace, ev.1.isWaitNo = false → failed ev.2 = false) :
    (o2 = .sourceFirst →
      ((run env o1 o2 true name).trace.map Prod.fst).filter Call.isDelete =
        [Call.DeleteANFVolume resourceGroupName name "DestinationStandardPool" volumeName,
         Call.DeleteANFCapacityPool resourceGroupName name "SourcePremiumPool",
         Call.DeleteANFCapacityPool resourceGroupName name "DestinationStandardPool",
         Call.DeleteANFAccount resourceGroupName name])
    ∧ (o2 = .destinationFirst →
      ((run env o1 o2 true name).trace.map Prod.fst).filter Call.isDelete =
        [Call.DeleteANFVolume resourceGroupName name "DestinationStandardPool" volumeName,
         Call.DeleteANFCapacityPool resourceGroupName name "DestinationStandardPool",
         Call.DeleteANFCapacityPool resourceGroupName name "SourcePremiumPool",
         Call.DeleteANFAccount resourceGroupName name]) := by
  apply teardown_order_aux (main_ends env o1 _) (exit_ends env o2 _)
  rw [List.all_eq_true]
  intro ev hev
  have := hok ev hev
  cases hw : ev.1.isWaitNo
  · simp [this hw]
  · simp

theorem C4_teardown_order_witness :
    (∀ ev ∈ (run envOk .sourceFirst .destinationFirst true "acct").trace,
        ev.1.isWaitNo = false → failed ev.2 = false)
    ∧ ((run envOk .sourceFirst .destinationFirst true "acct").trace.map Prod.fst).filter
        Call.isDelete =
        [Call.DeleteANFVolume resourceGroupName "acct" "DestinationStandardPool" volumeName,
         Call.DeleteANFCapacityPool resourceGroupName "acct" "DestinationStandardPool",
         Call.DeleteANFCapacityPool resourceGroupName "acct" "SourcePremiumPool",
         Call.DeleteANFAccount resourceGroupName "acct"] :=
  have hok : ∀ ev ∈ (run envOk .sourceFirst .destinationFirst true "acct").trace,
      ev.1.isWaitNo = false → failed ev.2 = false := by
    intro ev hev _
    have hall : (run envOk .sourceFirst .destinationFirst true "acct").trace.all
        (fun ev => !failed ev.2) = true := by decide
    simpa using List.all_eq_true.1 hall ev hev
  ⟨hok, (C4_teardown_order envOk .sourceFirst .destinationFirst "acct" hok).2 rfl⟩

/-- C5: in a run started with `shouldCleanUp = true` in which some call of
`main` (auth-file read, subnet lookup, account, pool or volume creation,
readiness wait, pool change) fails, no deletion call is issued, and
`shouldCleanUp` is false when `main` returns, hence when `exit` runs. -/
theorem C5_no_cleanup_after_failure (env : Env) (o1 o2 : MapOrder) (name : String)
    (hf : ∃ ev ∈ (run env o1 o2 true name).trace, ev.1.isMainStep = true ∧ failed ev.2 = true) :
    (∀ ev ∈ (run env o1 o2 true name).trace, ev.1.isDelete = false)
      ∧ (main env o1 (initGlobals true name)).shouldCleanUp = false := by
  obtain ⟨ev, hev, h1, h2⟩ := hf
  have hany : (run env o1 o2 true name).trace.any
      (fun ev => ev.1.isMainStep && failed ev.2) = true :=
    List.any_eq_true.2 ⟨ev, hev, by simp [h1, h2]⟩
  obtain ⟨ha, hflag⟩ := main_failure_aux (main_ends env o1 _) (exit_ends env o2 _) hany
  exact ⟨fun x hx => by simpa using List.all_eq_true.1 ha x hx, hflag⟩

theorem C5_no_cleanup_after_failure_witness :
    (∃ ev ∈ (run (envFailOn Call.isMove) .sourceFirst .sourceFirst true "acct").trace,
        ev.1.isMainStep = true ∧ failed ev.2 = true)
    ∧ (∀ ev ∈ (run (envFailOn Call.isMove) .sourceFirst .sourceFirst true "acct").trace,
        ev.1.isDelete = false)
    ∧ (main (envFailOn Call.isMove) .sourceFirst (initGlobals true "acct")).shouldCleanUp
        = false :=
  have hf : ∃ ev ∈ (run (envFailOn Call.isMove) .sourceFirst .sourceFirst true "acct").trace,
      ev.1.isMainStep = true ∧ failed ev.2 = true :=
    ⟨_, @List.getElem?_mem _ _ 7 _ rfl, rfl, rfl⟩
  ⟨hf, C5_no_cleanup_after_failure (envFailOn Call.isMove) .sourceFirst .sourceFirst "acct" hf⟩

/-- C6 fails as stated: with cleanup enabled and services that fail only the
wait-for-absence checks, a step of the cleanup (the `WaitForNoANFResource`
check on the volume) fails and yet the process exits with status 0. -/
theorem C6_counterexample :
    (Call.WaitForNoANFResource "/volumes/v" 60 60 false, Except.error "failed")
        ∈ (run (envFailOn Call.isWaitNo) .sourceFirst .sourceFirst true "acct").trace
    ∧ (run (envFailOn Call.isWaitNo) .sourceFirst .sourceFirst true "acct").exitCode = 0 :=
  ⟨@List.getElem?_mem _ _ 9 _ rfl, rfl⟩

/-- C6 (amended): for every run and every value of the cleanup flag the exit
code is 0 or 1, and it is 1 exactly when some call other than a
wait-for-absence check failed (auth-file read, subnet lookup, a creation, the
readiness wait, the pool change or a deletion); the answer of a
wait-for-absence check does not affect the exit code. -/
theorem C6_exit_code (env : Env) (o1 o2 : MapOrder) (cleanup : Bool) (name : String) :
    ((run env o1 o2 cleanup name).exitCode = 0 ∨ (run env o1 o2 cleanup name).exitCode = 1)
    ∧ ((run env o1 o2 cleanup name).exitCode = 1 ↔
        ∃ ev ∈ (run env o1 o2 cleanup name).trace, ev.1.isWaitNo = false ∧ failed ev.2 = true) := by
  obtain ⟨h01, hiff⟩ := exit_code_aux (main_ends env o1 (initGlobals cleanup name))
    (exit_ends env o2 _)
  refine ⟨h01, hiff.trans ?_⟩
  rw [List.any_eq_true]
  constructor
  · rintro ⟨ev, hev, h⟩
    exact ⟨ev, hev, by simpa using h⟩
  · rintro ⟨ev, hev, h1, h2⟩
    exact ⟨ev, hev, by simp [h1, h2]⟩

theorem noNil_all {l : List Event}
    (h : ∀ x ∈ l, x.1.returnsID = true → x.2 ≠ Except.ok none) :
    l.all (fun x => !(x.1.returnsID && isNil x.2)) = true := by
  rw [List.all_eq_true]
  rintro ⟨c, r⟩ hx
  have hx2 := h (c, r) hx
  cases hr : c.returnsID
  · simp
  · cases r with
    | error e => simp [isNil]
    | ok v =>
      cases v with
      | none => exact absurd rfl (hx2 hr)
      | some id => simp [isNil]

theorem noNil_of_all {l : List Event}
    (h : l.all (fun x => !(x.1.returnsID && isNil x.2)) = true) :
    ∀ x ∈ l, x.1.returnsID = true → x.2 ≠ Except.ok none := by
  rintro ⟨c, r⟩ hx hr heq
  have hb := List.all_eq_true.1 h (c, r) hx
  simp only at hr heq hb
  rw [hr, heq] at hb
  exact Bool.noConfusion hb

theorem Call.isDelete_of_parts (c : Call) :
    (c.isDeleteVolume = true → c.isDelete = true)
    ∧ (c.deletedPool.isSome = true → c.isDelete = true)
    ∧ (c.isDeleteAccount = true → c.isDelete = true) := by
  cases c <;> simp [Call.isDeleteVolume, Call.deletedPool, Call.isDeleteAccount, Call.isDelete]

theorem exit_waits_aux {s r : Globals} {o : MapOrder} (he : ExitEnds s o r) :
    ∃ evs, r.trace = s.trace ++ evs ∧ ∀ pre ev post, evs = pre ++ ev :: post →
      (ev.1.isDeleteVolume = true → failed ev.2 = false →
        ∃ a rest, post = (Call.WaitForNoANFResource s.volumeID 60 60 false, a) :: rest)
      ∧ (ev.1.deletedPool.isSome = true → failed ev.2 = false →
        ∃ k a rest, ev.1.deletedPool = some (s.pools.get k).CapacityPoolName
          ∧ post = (Call.WaitForNoANFResource (s.pools.get k).CapacityPoolID 10 60 false, a)
              :: rest)
      ∧ (ev.1.isDeleteAccount = true → post = []) := by
  cases he with
  | skip hc con =>
    exact ⟨[], (List.append_nil _).symm, fun pre ev post h => absurd h (by simp)⟩
  | delVolErr hc e con =>
    refine ⟨_, rfl, ?_⟩
    simp only [forall_split_cons, forall_split_nil]
    repeat' apply And.intro
    all_goals
      first
      | trivial
      | exact fun _ => trivial
      | exact fun hg => Bool.noConfusion hg
      | exact fun _ hf => Bool.noConfusion hf
  | delPool1Err hc dv a e con =>
    refine ⟨_, rfl, ?_⟩
    simp only [forall_split_cons, forall_split_nil]
    repeat' apply And.intro
    all_goals
      first
      | trivial
      | exact fun _ => trivial
      | exact fun hg => Bool.noConfusion hg
      | exact fun _ hf => Bool.noConfusion hf
      | exact fun _ _ => ⟨_, _, rfl⟩
  | delPool2Err hc dv a p1 a1 e con =>
    refine ⟨_, rfl, ?_⟩
    simp only [forall_split_cons, forall_split_nil]
    repeat' apply And.intro
    all_goals
      first
      | trivial
      | exact fun _ => trivial
      | exact fun hg => Bool.noConfusion hg
      | exact fun _ hf => Bool.noConfusion hf
      | exact fun _ _ => ⟨_, _, rfl⟩
      | exact fun _ _ => ⟨o.first, _, _, rfl, rfl⟩
  | delAcctErr hc dv a p1 a1 p2 a2 e con =>
    refine ⟨_, rfl, ?_⟩
    simp only [teardownEvents, List.cons_append, List.nil_append]
    simp only [forall_split_cons, forall_split_nil]
    repeat' apply And.intro
    all_goals
      first
      | trivial
      | exact fun _ => trivial
      | exact fun _ => rfl
      | exact fun hg => Bool.noConfusion hg
      | exact fun _ hf => Bool.noConfusion hf
      | exact fun _ _ => ⟨_, _, rfl⟩
      | exact fun _ _ => ⟨o.first, _, _, rfl, rfl⟩
      | exact fun _ _ => ⟨o.second, _, _, rfl, rfl⟩
  | ok hc dv a p1 a1 p2 a2 u con =>
    refine ⟨_, rfl, ?_⟩
    simp only [teardownEvents, List.cons_append, List.nil_append]
    simp only [forall_split_cons, forall_split_nil]
    repeat' apply And.intro
    all_goals
      first
      | trivial
      | exact fun _ => trivial
      | exact fun _ => rfl
      | exact fun hg => Bool.noConfusion hg
      | exact fun _ hf => Bool.noConfusion hf
      | exact fun _ _ => ⟨_, _, rfl⟩
      | exact fun _ _ => ⟨o.first, _, _, rfl, rfl⟩
      | exact fun _ _ => ⟨o.second, _, _, rfl, rfl⟩

theorem main_ids_aux {name : String} {cleanup : Bool} {o1 : MapOrder} {m : Globals}
    (hm : MainEnds (initGlobals cleanup name) o1 m) (hflag : m.shouldCleanUp = true)
    (hnil : m.trace.all (fun x => !(x.1.returnsID && isNil x.2)) = true) :
    (∃ cv, cv.isCreateVolume = true ∧ (cv, Except.ok (some m.volumeID)) ∈ m.trace)
    ∧ (∀ k, ∃ c, c.createdPool = some (m.pools.get k).CapacityPoolName
        ∧ (c, Except.ok (some (m.pools.get k).CapacityPoolID)) ∈ m.trace)
    ∧ (∃ mv, mv ∈ m.trace ∧ mv.1.isMove = true ∧ failed mv.2 = false) := by
  cases hm with
  | ok sub v aid id1 id2 vid w u con =>
    cases o1
    · refine ⟨⟨_, ?_, @List.getElem?_mem _ _ 5 _ rfl⟩, fun k => ?_,
        ⟨_, @List.getElem?_mem _ _ 7 _ rfl, rfl, rfl⟩⟩
      · rfl
      · cases k
        · refine ⟨_, ?_, @List.getElem?_mem _ _ 3 _ rfl⟩
          rfl
        · refine ⟨_, ?_, @List.getElem?_mem _ _ 4 _ rfl⟩
          rfl
    · refine ⟨⟨_, ?_, @List.getElem?_mem _ _ 5 _ rfl⟩, fun k => ?_,
        ⟨_, @List.getElem?_mem _ _ 7 _ rfl, rfl, rfl⟩⟩
      · rfl
      · cases k
        · refine ⟨_, ?_, @List.getElem?_mem _ _ 4 _ rfl⟩
          rfl
        · refine ⟨_, ?_, @List.getElem?_mem _ _ 3 _ rfl⟩
          rfl
  | authNil => exact Bool.noConfusion hnil
  | acctNil => exact Bool.noConfusion hnil
  | pool1Nil => exact Bool.noConfusion hnil
  | pool2Nil => exact Bool.noConfusion hnil
  | volNil => exact Bool.noConfusion hnil
  | _ => exact Bool.noConfusion hflag

/-- C7 fails as stated: in a teardown in which every call succeeds, the calls
made by `exit` end with the account deletion; no wait-for-absence call follows
the deletion of the account (the waits are on the volume and the two pools). -/
theorem C7_counterexample :
    (∀ ev ∈ (run envOk .sourceFirst .sourceFirst true "acct").trace, failed ev.2 = false)
    ∧ ((run envOk .sourceFirst .sourceFirst true "acct").trace.drop 8).map Prod.fst =
        [Call.DeleteANFVolume resourceGroupName "acct" "DestinationStandardPool" volumeName,
         Call.WaitForNoANFResource "/volumes/v" 60 60 false,
         Call.DeleteANFCapacityPool resourceGroupName "acct" "SourcePremiumPool",
         Call.WaitForNoANFResource "/pools/SourcePremiumPool" 10 60 false,
         Call.DeleteANFCapacityPool resourceGroupName "acct" "DestinationStandardPool",
         Call.WaitForNoANFResource "/pools/DestinationStandardPool" 10 60 false,
         Call.DeleteANFAccount resourceGroupName "acct"] := by
  refine ⟨fun ev hev => ?_, rfl⟩
  have hall : (run envOk .sourceFirst .sourceFirst true "acct").trace.all
      (fun ev => !failed ev.2) = true := by decide
  simpa using List.all_eq_true.1 hall ev hev

/-- C7 (amended): in every run, a successful volume deletion call and a
successful pool deletion call are each immediately followed by a
`WaitForNoANFResource` call, so each wait precedes every later deletion; when
every auth-file read and creation answered before carried its identifier (no
nil identifier), that wait is on the id returned by the creation of that same
resource (the volume, or the pool of the same name).  The account deletion
call is the last call of the run, whatever its answer, and no wait follows
it. -/
theorem C7_delete_then_wait (env : Env) (o1 o2 : MapOrder) (cleanup : Bool) (name : String)
    (pre post : List Event) (ev : Event)
    (ht : (run env o1 o2 cleanup name).trace = pre ++ ev :: post) :
    (ev.1.isDeleteVolume = true → failed ev.2 = false →
      ∃ vid a rest, post = (Call.WaitForNoANFResource vid 60 60 false, a) :: rest
        ∧ ((∀ x ∈ pre, x.1.returnsID = true → x.2 ≠ Except.ok none) →
            ∃ cv, cv.isCreateVolume = true ∧ (cv, Except.ok (some vid)) ∈ pre))
    ∧ (ev.1.deletedPool.isSome = true → failed ev.2 = false →
      ∃ id a rest, post = (Call.WaitForNoANFResource id 10 60 false, a) :: rest
        ∧ ((∀ x ∈ pre, x.1.returnsID = true → x.2 ≠ Except.ok none) →
            ∃ c, c.createdPool = ev.1.deletedPool ∧ (c, Except.ok (some id)) ∈ pre))
    ∧ (ev.1.isDeleteAccount = true → post = []) := by
  have key : ev.1.isDelete = true →
      (ev.1.isDeleteVolume = true → failed ev.2 = false →
        ∃ vid a rest, post = (Call.WaitForNoANFResource vid 60 60 false, a) :: rest
          ∧ ((∀ x ∈ pre, x.1.returnsID = true → x.2 ≠ Except.ok none) →
              ∃ cv, cv.isCreateVolume = true ∧ (cv, Except.ok (some vid)) ∈ pre))
      ∧ (ev.1.deletedPool.isSome = true → failed ev.2 = false →
        ∃ id a rest, post = (Call.WaitForNoANFResource id 10 60 false, a) :: rest
          ∧ ((∀ x ∈ pre, x.1.returnsID = true → x.2 ≠ Except.ok none) →
              ∃ c, c.createdPool = ev.1.deletedPool ∧ (c, Except.ok (some id)) ∈ pre))
      ∧ (ev.1.isDeleteAccount = true → post = []) := by
    intro hd
    obtain ⟨pre2, hpre, hexit, hflag⟩ := delete_in_exit env o1 o2 cleanup name ht hd
    obtain ⟨evs, hr, hsplit⟩ :=
      exit_waits_aux (exit_ends env o2 (main env o1 (initGlobals cleanup name)))
    have hevs : evs = pre2 ++ ev :: post := List.append_cancel_left (hr.symm.trans hexit)
    obtain ⟨hv, hp, ha⟩ := hsplit pre2 ev post hevs
    have hids : (∀ x ∈ pre, x.1.returnsID = true → x.2 ≠ Except.ok none) → _ := fun hn =>
      main_ids_aux (main_ends env o1 (initGlobals cleanup name)) hflag
        (noNil_all (fun x hx => hn x (by rw [hpre]; exact List.mem_append_left _ hx)))
    refine ⟨fun hg hf => ?_, fun hg hf => ?_, ha⟩
    · obtain ⟨a, rest, hpost⟩ := hv hg hf
      refine ⟨_, a, rest, hpost, fun hn => ?_⟩
      obtain ⟨⟨cv, hcv, hmem⟩, _, _⟩ := hids hn
      exact ⟨cv, hcv, by rw [hpre]; exact List.mem_append_left _ hmem⟩
    · obtain ⟨k, a, rest, hname, hpost⟩ := hp hg hf
      refine ⟨_, a, rest, hpost, fun hn => ?_⟩
      obtain ⟨_, hpools, _⟩ := hids hn
      obtain ⟨c, hc, hmem⟩ := hpools k
      exact ⟨c, hc.trans hname.symm, by rw [hpre]; exact List.mem_append_left _ hmem⟩
  obtain ⟨d1, d2, d3⟩ := Call.isDelete_of_parts ev.1
  exact ⟨fun hg => (key (d1 hg)).1 hg, fun hg => (key (d2 hg)).2.1 hg,
    fun hg => (key (d3 hg)).2.2 hg⟩

theorem C7_delete_then_wait_witness :
    (run envOk .sourceFirst .destinationFirst true "acct").trace
      = traceOk.take 10
        ++ (Call.DeleteANFCapacityPool resourceGroupName "acct" "DestinationStandardPool",
            Except.ok none) :: traceOk.drop 11
    ∧ (Call.DeleteANFCapacityPool resourceGroupName "acct"
          "DestinationStandardPool").deletedPool.isSome = true
    ∧ failed (Except.ok none) = false
    ∧ (∀ x ∈ traceOk.take 10, x.1.returnsID = true → x.2 ≠ Except.ok none)
    ∧ ∃ id a rest, traceOk.drop 11 = (Call.WaitForNoANFResource id 10 60 false, a) :: rest
        ∧ ∃ c, c.createdPool = some "DestinationStandardPool"
              ∧ (c, Except.ok (some id)) ∈ traceOk.take 10 :=
  ⟨rfl, rfl, rfl, noNil_of_all rfl,
    match (C7_delete_then_wait envOk .sourceFirst .destinationFirst true "acct"
      (traceOk.take 10)
      (traceOk.drop 11)
      (Call.DeleteANFCapacityPool resourceGroupName "acct" "DestinationStandardPool",
        Except.ok none)
      rfl).2.1 rfl rfl with
    | ⟨id, a, rest, hpost, hlink⟩ => ⟨id, a, rest, hpost, hlink (noNil_of_all rfl)⟩⟩

theorem creation_error_aux {name : String} {cleanup : Bool} {o1 o2 : MapOrder} {m r : Globals}
    (hm : MainEnds (initGlobals cleanup name) o1 m) (he : ExitEnds m o2 r) :
    splitAll (fun _ ev post => !(ev.1.isCreate && failed ev.2) || post.isEmpty) [] r.trace
      = true
    ∧ (r.trace.any (fun ev => ev.1.isCreate && failed ev.2) = true →
        r.exitCode = 1 ∧ r.shouldCleanUp = false) := by
  cases hm <;> cases he <;>
  first
  | exact Bool.noConfusion ‹false = true›
  | exact ⟨rfl, fun _ => ⟨rfl, rfl⟩⟩
  | exact ⟨rfl, fun hc => Bool.noConfusion hc⟩

theorem volume_after_pools_aux {name : String} {cleanup : Bool} {o1 o2 : MapOrder}
    {m r : Globals} (hm : MainEnds (initGlobals cleanup name) o1 m) (he : ExitEnds m o2 r) :
    splitAll (fun pre ev _ => !ev.1.isCreateVolume ||
      (pre.any (fun x => x.1.isCreateAccount && !failed x.2)
        && pre.any (fun x => x.1.createdPool == some "SourcePremiumPool" && !failed x.2)
        && pre.any (fun x => x.1.createdPool == some "DestinationStandardPool" && !failed x.2)))
      [] r.trace = true := by
  cases hm <;> cases he <;>
  first
  | exact Bool.noConfusion ‹false = true›
  | rfl
  | (cases o1 <;> rfl)

/-- C8: in every run, a creation call (`CreateANFAccount`,
`CreateANFCapacityPool`, `CreateANFVolume`) that returns an error is the last
call of the run (so no creation, readiness wait or pool change follows it),
the exit code is 1 and `shouldCleanUp` is false; and a volume creation call is
preceded by a successful account creation and by a successful creation of each
of the two pools. -/
theorem C8_creation_failure (env : Env) (o1 o2 : MapOrder) (cleanup : Bool) (name : String)
    (pre post : List Event) (ev : Event)
    (ht : (run env o1 o2 cleanup name).trace = pre ++ ev :: post) :
    (ev.1.isCreate = true → failed ev.2 = true →
        post = [] ∧ (run env o1 o2 cleanup name).exitCode = 1
          ∧ (run env o1 o2 cleanup name).shouldCleanUp = false)
    ∧ (ev.1.isCreateVolume = true →
        (∃ x ∈ pre, x.1.isCreateAccount = true ∧ failed x.2 = false)
        ∧ (∃ x ∈ pre, x.1.createdPool = some "SourcePremiumPool" ∧ failed x.2 = false)
        ∧ (∃ x ∈ pre, x.1.createdPool = some "DestinationStandardPool"
            ∧ failed x.2 = false)) := by
  obtain ⟨h1, h2⟩ := creation_error_aux (main_ends env o1 (initGlobals cleanup name))
    (exit_ends env o2 _)
  have h3 := volume_after_pools_aux (main_ends env o1 (initGlobals cleanup name))
    (exit_ends env o2 _)
  have q1 := splitAll_sound _ _ [] h1 pre ev post ht
  have q3 := splitAll_sound _ _ [] h3 pre ev post ht
  constructor
  · intro hc hf
    have hany : (run env o1 o2 cleanup name).trace.any
        (fun ev => ev.1.isCreate && failed ev.2) = true :=
      List.any_eq_true.2
        ⟨ev, by rw [ht]; exact List.mem_append_right _ (List.mem_cons_self _ _),
          by simp [hc, hf]⟩
    refine ⟨?_, h2 hany⟩
    simpa [hc, hf] using q1
  · intro hv
    simpa [hv, and_assoc] using q3

theorem C8_creation_failure_witness :
    (run (envFailOn Call.isCreateVolume) .destinationFirst .sourceFirst true "acct").trace
      = (run (envFailOn Call.isCreateVolume) .destinationFirst .sourceFirst true "acct").trace.take 5
        ++ (Call.CreateANFVolume location resourceGroupName "acct" "SourcePremiumPool"
              volumeName "Premium" (subnetIDOf "sub-0") "" protocolTypes volumeSizeBytes
              false true sampleTags, Except.error "failed") :: []
    ∧ (Call.CreateANFVolume location resourceGroupName "acct" "SourcePremiumPool"
          volumeName "Premium" (subnetIDOf "sub-0") "" protocolTypes volumeSizeBytes
          false true sampleTags).isCreate = true
    ∧ failed (Except.error "failed") = true
    ∧ ([] = ([] : List Event)
        ∧ (run (envFailOn Call.isCreateVolume) .destinationFirst .sourceFirst true "acct").exitCode
            = 1
        ∧ (run (envFailOn Call.isCreateVolume) .destinationFirst .sourceFirst true
            "acct").shouldCleanUp = false) :=
  ⟨rfl, rfl, rfl, (C8_creation_failure (envFailOn Call.isCreateVolume) .destinationFirst .sourceFirst true
    "acct" _ [] _ rfl).1 rfl rfl⟩

theorem exit_delete_error_aux {s r : Globals} {o : MapOrder} (h : ExitEnds s o r)
    (hs : s.shouldCleanUp = true) :
    ∃ evs, r.trace = s.trace ++ evs
      ∧ splitAll (fun _ ev post => !(ev.1.isDelete && failed ev.2) || post.isEmpty) [] evs = true
      ∧ (evs.any (fun ev => ev.1.isDelete && failed ev.2) = true → r.exitCode = 1) := by
  cases h with
  | skip hc con => rw [hs] at hc; exact absurd hc (by decide)
  | delVolErr hc e con => exact ⟨_, rfl, rfl, fun _ => rfl⟩
  | delPool1Err hc dv r e con => exact ⟨_, rfl, rfl, fun _ => rfl⟩
  | delPool2Err hc dv r p1 r1 e con => exact ⟨_, rfl, rfl, fun _ => rfl⟩
  | delAcctErr hc dv r p1 r1 p2 r2 e con => exact ⟨_, rfl, rfl, fun _ => rfl⟩
  | ok hc dv r p1 r1 p2 r2 u con => exact ⟨_, rfl, rfl, fun hc => Bool.noConfusion hc⟩

/-- C9: for every teardown (`exit` entered with `shouldCleanUp = true`, from
any state and with any service behaviour), a deletion call that returns an
error is the last call made by `exit` (no further deletion or
wait-for-absence call follows it) and `exitCode` is 1 when `exit` returns. -/
theorem C9_deletion_failure (env : Env) (o : MapOrder) (s : Globals)
    (hc : s.shouldCleanUp = true) (pre post : List Event) (ev : Event)
    (ht : (exit env o s).trace = s.trace ++ (pre ++ ev :: post))
    (hd : ev.1.isDelete = true) (hf : failed ev.2 = true) :
    post = [] ∧ (exit env o s).exitCode = 1 := by
  obtain ⟨evs, h1, h2, h3⟩ := exit_delete_error_aux (exit_ends env o s) hc
  have hevs : evs = pre ++ ev :: post := List.append_cancel_left (h1.symm.trans ht)
  have q := splitAll_sound _ _ [] h2 pre ev post hevs
  have hany : evs.any (fun ev => ev.1.isDelete && failed ev.2) = true :=
    List.any_eq_true.2
      ⟨ev, by rw [hevs]; exact List.mem_append_right _ (List.mem_cons_self _ _),
        by simp [hd, hf]⟩
  refine ⟨?_, h3 hany⟩
  simpa [hd, hf] using q

theorem C9_deletion_failure_witness :
    (initGlobals true "acct").shouldCleanUp = true
    ∧ (exit (envFailOn Call.isDeleteVolume) .sourceFirst (initGlobals true "acct")).trace
        = (initGlobals true "acct").trace
          ++ ([] ++ (Call.DeleteANFVolume resourceGroupName "acct" "DestinationStandardPool"
                volumeName, Except.error "failed") :: [])
    ∧ (Call.DeleteANFVolume resourceGroupName "acct" "DestinationStandardPool"
          volumeName).isDelete = true
    ∧ failed (Except.error "failed") = true
    ∧ ([] = ([] : List Event)
        ∧ (exit (envFailOn Call.isDeleteVolume) .sourceFirst (initGlobals true "acct")).exitCode
            = 1) :=
  ⟨rfl, rfl, rfl, rfl, C9_deletion_failure (envFailOn Call.isDeleteVolume) .sourceFirst
    (initGlobals true "acct") rfl [] []
    (Call.DeleteANFVolume resourceGroupName "acct" "DestinationStandardPool" volumeName,
      Except.error "failed") rfl rfl rfl⟩

theorem volume_coordinates_aux {name : String} {cleanup : Bool} {o1 o2 : MapOrder}
    {m r : Globals} (hm : MainEnds (initGlobals cleanup name) o1 m) (he : ExitEnds m o2 r) :
    r.trace.all (fun ev =>
      (!ev.1.isCreateVolume || (ev.1.volumePool == some "SourcePremiumPool"
          && ev.1.volumeLevel == some "Premium"))
      && (!ev.1.isMove || ev.1.volumePool == some "SourcePremiumPool")
      && (!ev.1.isDeleteVolume || ev.1.volumePool == some "DestinationStandardPool")) = true := by
  cases hm <;> cases he <;>
  first
  | exact Bool.noConfusion ‹false = true›
  | rfl
  | (cases o1 <;> rfl)

/-- C10 fails as stated: when the volume creation succeeds with a nil
identifier, `main` stops at `*volume.ID` before the readiness wait and the
pool change, `shouldCleanUp` keeps its value, and the deferred `exit` issues
`DeleteANFVolume` under "DestinationStandardPool" although no pool-change call
was made in the run; the process exits with code 0. -/
theorem C10_counterexample :
    (Call.DeleteANFVolume resourceGroupName "acct" "DestinationStandardPool" volumeName,
        Except.ok none) ∈ (run envNilVolumeID .sourceFirst .sourceFirst true "acct").trace
    ∧ (∀ ev ∈ (run envNilVolumeID .sourceFirst .sourceFirst true "acct").trace,
        ev.1.isMove = false)
    ∧ (run envNilVolumeID .sourceFirst .sourceFirst true "acct").exitCode = 0 := by
  refine ⟨@List.getElem?_mem _ _ 6 _ rfl, fun ev hev => ?_, rfl⟩
  have hall : (run envNilVolumeID .sourceFirst .sourceFirst true "acct").trace.all
      (fun ev => !ev.1.isMove) = true := by decide
  simpa using List.all_eq_true.1 hall ev hev

/-- C10 (amended): in every run, the volume creation call addresses the volume
under pool "SourcePremiumPool" with service level "Premium"; the pool-change
call addresses it under "SourcePremiumPool" (that call has no service-level
argument); every volume deletion call addresses it under
"DestinationStandardPool".  When every auth-file read and creation answered
before a volume deletion call carried its identifier (no nil identifier), that
deletion is preceded by a pool-change call that returned success and whose
`NewPoolResourceID` is the id returned by the creation of
"DestinationStandardPool". -/
theorem C10_volume_coordinates (env : Env) (o1 o2 : MapOrder) (cleanup : Bool) (name : String)
    (pre post : List Event) (ev : Event)
    (ht : (run env o1 o2 cleanup name).trace = pre ++ ev :: post) :
    (ev.1.isCreateVolume = true →
        ev.1.volumePool = some "SourcePremiumPool" ∧ ev.1.volumeLevel = some "Premium")
    ∧ (ev.1.isMove = true → ev.1.volumePool = some "SourcePremiumPool")
    ∧ (ev.1.isDeleteVolume = true →
        ev.1.volumePool = some "DestinationStandardPool"
        ∧ ((∀ x ∈ pre, x.1.returnsID = true → x.2 ≠ Except.ok none) →
            ∃ mv ∈ pre, mv.1.isMove = true ∧ failed mv.2 = false
              ∧ ∃ nid c, mv.1.newPoolResourceID = some nid
                  ∧ (c, Except.ok (some nid)) ∈ pre
                  ∧ c.createdPool = some "DestinationStandardPool")) := by
  have h1 := volume_coordinates_aux (main_ends env o1 (initGlobals cleanup name))
    (exit_ends env o2 (main env o1 (initGlobals cleanup name)))
  have hmem : ev ∈ (run env o1 o2 cleanup name).trace := by
    rw [ht]; exact List.mem_append_right _ (List.mem_cons_self _ _)
  have q1 := List.all_eq_true.1 h1 ev hmem
  simp only [Bool.and_eq_true, Bool.or_eq_true, Bool.not_eq_true', beq_iff_eq] at q1
  obtain ⟨⟨qa, qb⟩, qc⟩ := q1
  refine ⟨fun hv => ?_, fun hm => ?_, fun hd => ⟨?_, fun hn => ?_⟩⟩
  · simpa [hv] using qa
  · simpa [hm] using qb
  · simpa [hd] using qc
  · obtain ⟨pre2, hpre, _, hflag⟩ :=
      delete_in_exit env o1 o2 cleanup name ht ((Call.isDelete_of_parts ev.1).1 hd)
    have hsub : ∀ x ∈ (main env o1 (initGlobals cleanup name)).trace, x ∈ pre :=
      fun x hx => by rw [hpre]; exact List.mem_append_left _ hx
    obtain ⟨_, _, mv, hmv, hmove, hokmv⟩ :=
      main_ids_aux (main_ends env o1 (initGlobals cleanup name)) hflag
        (noNil_all (fun x hx => hn x (hsub x hx)))
    obtain ⟨p1, p2, hsplit⟩ := List.append_of_mem hmv
    obtain ⟨nid, c, hnid, hc, hcp⟩ :=
      move_target_aux (main_ends env o1 (initGlobals cleanup name)) p1 mv p2 hsplit hmove
    exact ⟨mv, hsub mv hmv, hmove, hokmv, nid, c, hnid,
      hsub _ (by rw [hsplit]; exact List.mem_append_left _ hc), hcp⟩

theorem C10_volume_coordinates_witness :
    (run envOk .sourceFirst .destinationFirst true "acct").trace
      = traceOk.take 8
        ++ (Call.DeleteANFVolume resourceGroupName "acct" "DestinationStandardPool" volumeName,
            Except.ok none) :: traceOk.drop 9
    ∧ (Call.DeleteANFVolume resourceGroupName "acct" "DestinationStandardPool"
          volumeName).isDeleteVolume = true
    ∧ (∀ x ∈ traceOk.take 8, x.1.returnsID = true → x.2 ≠ Except.ok none)
    ∧ (Call.DeleteANFVolume resourceGroupName "acct" "DestinationStandardPool"
          volumeName).volumePool = some "DestinationStandardPool"
    ∧ ∃ mv ∈ traceOk.take 8, mv.1.isMove = true ∧ failed mv.2 = false
        ∧ ∃ nid c, mv.1.newPoolResourceID = some nid
            ∧ (c, Except.ok (some nid)) ∈ traceOk.take 8
            ∧ c.createdPool = some "DestinationStandardPool" :=
  ⟨rfl, rfl, noNil_of_all rfl,
    match (C10_volume_coordinates envOk .sourceFirst .destinationFirst true "acct"
      (traceOk.take 8)
      (traceOk.drop 9)
      (Call.DeleteANFVolume resourceGroupName "acct" "DestinationStandardPool" volumeName,
        Except.ok none)
      rfl).2.2 rfl with
    | ⟨hpool, hmove⟩ => ⟨hpool, hmove (noNil_of_all rfl)⟩⟩

end PoolChange
